import Mathlib

/-!
MoodScape session state machine.

A shallow embedding of the session logic of `client/src/App.jsx` (the `App`
component) and of the ritual tables of `client/src/App.jsx` and
`client/src/rituals.js`.

React state is an explicit record; every event handler is a function on that
record that applies the handler's `setX` calls in program order. The autoplay
`useEffect` is re-run after an event whenever one of its dependencies changed.
Remote calls are modelled by the outcome the awaited promise delivers.
-/

namespace MoodScape

/-! ## JavaScript values -/

/-- The JavaScript values that reach the session code out of a parsed JSON body.
`other` stands for numbers, booleans, arrays and objects: they have no
`toLowerCase` method; `truthy` is their boolean coercion, `key` the string
they are converted to when used as a property key, and `child` tells whether
React can render them as a child (it cannot render a plain object). -/
inductive JsVal where
  | undefined
  | null
  | str (s : String)
  | other (truthy : Bool) (key : String) (child : Bool)
  deriving DecidableEq, Repr

/-- Boolean coercion, as in `!mood` and `mood ? a : b`. -/
def JsVal.truthy : JsVal → Bool
  | .undefined => false
  | .null => false
  | .str s => decide (s ≠ "")
  | .other t _ _ => t

/-- Property-key conversion, as in `RITUALS[mood]`. -/
def JsVal.key : JsVal → String
  | .undefined => "undefined"
  | .null => "null"
  | .str s => s
  | .other _ k _ => k

/-- Whether React renders the value when it is a child of an element, as in
`{msg.text}`; a value it cannot render makes the render throw. -/
def JsVal.child : JsVal → Bool
  | .undefined => true
  | .null => true
  | .str _ => true
  | .other _ _ c => c

/-- The names every object literal inherits from `Object.prototype`: a lookup
`table[name]` with such a name that is not an own key of the table gives an
inherited member, which is truthy and has no `steps` or `accentColor`. -/
def objectPrototypeNames : List String :=
  ["constructor", "__proto__", "hasOwnProperty", "isPrototypeOf", "propertyIsEnumerable",
   "toLocaleString", "toString", "valueOf", "__defineGetter__", "__defineSetter__",
   "__lookupGetter__", "__lookupSetter__"]

/-- The code points that `String.prototype.trim` removes (ECMAScript WhiteSpace
and LineTerminator). -/
def isJsWhiteSpace (c : Char) : Bool :=
  let n := c.toNat
  n == 0x09 || n == 0x0A || n == 0x0B || n == 0x0C || n == 0x0D || n == 0x20 ||
  n == 0xA0 || n == 0x1680 || (0x2000 ≤ n && n ≤ 0x200A) || n == 0x2028 ||
  n == 0x2029 || n == 0x202F || n == 0x205F || n == 0x3000 || n == 0xFEFF

/-- The test `!text.trim()`: the text is empty once trimmed. -/
def blank (text : String) : Bool :=
  text.toList.all isJsWhiteSpace

/-- UTF-16 code units of one code point. -/
def utf16Units (c : Char) : List Nat :=
  if c.toNat < 0x10000 then [c.toNat]
  else [0xD800 + (c.toNat - 0x10000) / 0x400, 0xDC00 + (c.toNat - 0x10000) % 0x400]

/-- A string as JavaScript indexes it: its UTF-16 code units. -/
def utf16 (text : String) : List Nat :=
  text.toList.flatMap utf16Units

/-! ## Mood catalog -/

/-- One entry of a `RITUALS` table. -/
structure Ritual where
  title : String
  steps : List String
  deriving DecidableEq, Repr

/-- The table `RITUALS` declared in `App.jsx`, the one the component reads. -/
def RITUALS : List (String × Ritual) :=
  [ ("Anxious", ⟨"4-7-8 Breathing", ["Sit comfortably", "Inhale through nose (4s)", "Hold breath (7s)", "Exhale slowly (8s)", "Repeat 4 times"]⟩),
    ("Overwhelmed", ⟨"5-4-3-2-1 Grounding", ["Observe your space", "5 things you see", "4 things you touch", "3 sounds you hear", "2 things you smell"]⟩),
    ("Low", ⟨"Sunlight Visualization", ["Close your eyes", "Imagine golden light", "Feel it on your forehead", "Let warmth fill your chest", "Breathe in the energy"]⟩),
    ("Sad", ⟨"Self-Compassion", ["Hand on heart", "Feel your heartbeat", "Take 3 deep breaths", "Say: \x27I\x27m doing my best\x27", "Say: \x27I deserve peace\x27"]⟩),
    ("Energized", ⟨"Channel Energy", ["Stand and stretch", "Shake it out", "Pick ONE task", "Set 25-min timer", "Begin with intention"]⟩),
    ("Calm", ⟨"Gratitude Moment", ["Notice this peace", "Think of someone special", "Send silent thanks", "Feel the connection", "Smile softly"]⟩),
    ("Focused", ⟨"Deep Work Ritual", ["Silence notifications", "Close extra tabs", "Write your goal", "One centering breath", "Begin focused work"]⟩) ]

/-- The table `RITUALS` exported by `rituals.js`. -/
def RITUALS_rituals_js : List (String × Ritual) :=
  [ ("Anxious", ⟨"4-7-8 Breathing", ["Inhale (4s)", "Hold (7s)", "Exhale (8s)", "Repeat"]⟩),
    ("Overwhelmed", ⟨"5-4-3-2-1 Grounding", ["5 things you see", "4 things you feel", "3 things you hear", "2 you smell", "1 you taste"]⟩),
    ("Low", ⟨"Sunlight Viz", ["Close eyes", "Imagine golden light", "Feel warmth", "Stay for 30s"]⟩),
    ("Sad", ⟨"Self-Compassion", ["Hand on heart", "Say: \x27I am doing my best\x27", "Breathe deeply"]⟩),
    ("Energized", ⟨"Power Focus", ["List 3 goals", "Do the hardest one first", "Go!"]⟩),
    ("Calm", ⟨"Gratitude", ["Think of one person", "Send them a mental thank you"]⟩),
    ("Focused", ⟨"Deep Work", ["Phone away", "Timer: 25 mins", "Start"]⟩) ]

/-- The own keys of the table `MOODS` of `App.jsx`; each holds the display
settings of the mood (`gradient`, `accentColor`, `textColor`, ...). -/
def MOODS : List String :=
  ["Anxious", "Overwhelmed", "Low", "Sad", "Energized", "Calm", "Focused"]

/-- What the component closes over: the `RITUALS` table in scope and the host
function `String.prototype.toLowerCase`. -/
structure Env where
  RITUALS : List (String × Ritual)
  toLowerCase : String → String

/-- The script `RITUALS[mood]` when the key of the mood is an own key of the
table. When it is `none`, the lookup `RITUALS[mood]` is `undefined`, unless the
key is one of `objectPrototypeNames`: then it is an inherited member, truthy
and without `steps` (`Env.ritualInherited`). -/
def Env.ritualOf (env : Env) (mood : JsVal) : Option Ritual :=
  env.RITUALS.lookup mood.key

/-- The lookup `RITUALS[mood]` finds an inherited member and no script. -/
def Env.ritualInherited (env : Env) (mood : JsVal) : Bool :=
  (env.ritualOf mood).isNone && objectPrototypeNames.contains mood.key

/-- The lookup `MOODS[mood]` is `undefined`: the key is neither an own key of
`MOODS` nor an inherited name. -/
def moodConfigMissing (mood : JsVal) : Bool :=
  !MOODS.contains mood.key && !objectPrototypeNames.contains mood.key

/-- The environment of `App.jsx`, for a given host `toLowerCase`. -/
def appEnv (lower : String → String) : Env :=
  ⟨RITUALS, lower⟩

/-! ## Session state -/

/-- The values of the `view` state. -/
inductive View where
  | input
  | ritual
  | chat
  deriving DecidableEq, Repr

/-- The `sender` of a transcript message. -/
inductive Sender where
  | user
  | bot
  deriving DecidableEq, Repr

/-- One transcript message `{ sender, text }`. -/
structure Msg where
  sender : Sender
  text : JsVal
  deriving DecidableEq, Repr

/-- One entry of the `moodHistory` log; `text` holds UTF-16 code units. -/
structure Entry where
  id : Nat
  date : String
  mood : JsVal
  text : List Nat
  deriving DecidableEq, Repr

/-- The state of the `App` component, with the pending autoplay timeout
(`timer`, holding the `currentStep` its callback captured), the texts passed
to `alert` so far and the number of exceptions no handler caught. `mounted`
is false once an exception thrown while rendering or in an effect made React
unmount the component; the other fields then keep the values of that time. -/
structure State where
  user : Option JsVal
  emergencyEmail : String
  view : View
  input : String
  mood : JsVal
  loading : Bool
  currentStep : Nat
  completedSteps : List Nat
  isAutoPlaying : Bool
  timer : Option Nat
  chatInput : String
  messages : List Msg
  history : List Entry
  alerts : List String
  uncaught : Nat
  mounted : Bool
  deriving DecidableEq, Repr

/-- The state at mount, for a log read from storage. -/
def initialState (stored : List Entry) : State :=
  { user := none, emergencyEmail := "", view := .input, input := "", mood := .null,
    loading := false, currentStep := 0, completedSteps := [], isAutoPlaying := false,
    timer := none, chatInput := "", messages := [], history := stored, alerts := [],
    uncaught := 0, mounted := true }

/-- The call `alert(text)`. -/
def raiseAlert (text : String) (s : State) : State :=
  { s with alerts := s.alerts ++ [text] }

/-- An exception escapes a render or an effect: React unmounts the component,
which runs the cleanup of the autoplay effect. -/
def unmount (s : State) : State :=
  { s with mounted := false, timer := none, uncaught := s.uncaught + 1 }

/-- The render of `App` throws on the state. Without a signed-in user the
login view is returned before anything else is rendered. Otherwise the render
throws
* at `moodConfig.accentColor` (background particles) when the mood is truthy
  and `MOODS[mood]` is `undefined`;
* in the intake view when an entry of the log has a mood React cannot render;
* in the ritual view (shown when `ritual` and `moodConfig` are truthy) at
  `ritual.steps.length` when `RITUALS[mood]` is an inherited member, or at
  `{mood}` when React cannot render the mood;
* in the chat view when a message has a text React cannot render. -/
def renderThrows (env : Env) (s : State) : Bool :=
  s.user.isSome &&
    ((s.mood.truthy && moodConfigMissing s.mood) ||
     (s.view == .input && s.history.any (fun entry => !entry.mood.child)) ||
     (s.view == .ritual && s.mood.truthy &&
        (match env.ritualOf s.mood with
         | some _ => !s.mood.child
         | none => env.ritualInherited s.mood)) ||
     (s.view == .chat && s.messages.any (fun msg => !msg.text.child)))

/-! ## Ritual logic -/

/-- The dependency array `[isAutoPlaying, currentStep, mood]`. -/
def deps (s : State) : Bool × Nat × JsVal :=
  (s.isAutoPlaying, s.currentStep, s.mood)

/-- The body of the autoplay `useEffect`, run on the rendered state. For an
inherited member the guard `!RITUALS[mood]` lets the effect pass and
`ritual.steps.length` throws. -/
def autoplayEffect (env : Env) (s : State) : State :=
  if !s.isAutoPlaying || !s.mood.truthy then s
  else
    match env.ritualOf s.mood with
    | none => if env.ritualInherited s.mood then unmount s else s
    | some ritual =>
      if (s.currentStep : Int) ≥ (ritual.steps.length : Int) - 1 then
        { s with isAutoPlaying := false }
      else
        { s with timer := some s.currentStep }

/-- The cleanup the effect returned: `clearTimeout(autoPlayTimeoutRef.current)`. -/
def clearAutoplayTimer (s : State) : State :=
  { s with timer := none }

/-- Renders after a state change: while the dependencies differ from those of
the previous render, the old effect is cleaned up and the effect runs again
(it may itself set `isAutoPlaying`, which asks for one more render). -/
def runEffects (env : Env) : Nat → Bool × Nat × JsVal → State → State
  | 0, _, s => s
  | fuel + 1, prev, s =>
    if deps s = prev then s
    else runEffects env fuel (deps s) (autoplayEffect env (clearAutoplayTimer s))

/-- The effect passes that follow one event; two always suffice
(`runEffects_fuel`). -/
def commit (env : Env) (prev : Bool × Nat × JsVal) (s : State) : State :=
  runEffects env 2 prev s

/-- One event whose render does not throw: the handler runs on the current
state, then the effects. -/
def dispatch (env : Env) (handler : State → State) (s : State) : State :=
  commit env (deps s) (handler s)

/-- One event on a mounted component: the handler runs on the current state,
the component renders, and the effects follow; when the render throws, the
component is unmounted.
(Whether the render throws does not depend on `isAutoPlaying` or `timer`, so
the renders asked for by the effect throw exactly when the first does.) -/
def event (env : Env) (handler : State → State) (s : State) : State :=
  if renderThrows env (handler s) then unmount (handler s) else dispatch env handler s

/-- The callback given to `setTimeout`, where `captured` is the `currentStep` of
the render that armed it. -/
def onTimeout (captured : Nat) (s : State) : State :=
  { s with timer := none, currentStep := s.currentStep + 1,
           completedSteps := s.completedSteps ++ [captured] }

/-- The pending autoplay timer fires; `none` when no timer is pending. -/
def fireTimer (env : Env) (s : State) : Option State :=
  match s.timer with
  | none => none
  | some captured => some (dispatch env (onTimeout captured) s)

/-- The autoplay timer fires `n` times in a row, nothing else happening in
between; `none` when some firing finds no timer pending. -/
def fireTimes (env : Env) : Nat → State → Option State
  | 0, s => some s
  | n + 1, s => (fireTimer env s).bind (fireTimes env n)

/-- The handler `toggleAutoPlay`. -/
def toggleAutoPlay (s : State) : State :=
  { s with isAutoPlaying := !s.isAutoPlaying }

/-- The handler `goToStep(index)`. -/
def goToStep (index : Nat) (s : State) : State :=
  { s with timer := none, isAutoPlaying := false, currentStep := index }

/-- The handler `completeCurrentStep`. With no script for the mood, reading
`ritual.steps.length` throws after the completed steps were set (`ritual` is
`undefined`, or an inherited member without `steps`). -/
def completeCurrentStep (env : Env) (s : State) : State :=
  let s1 :=
    if !s.completedSteps.contains s.currentStep then
      { s with completedSteps := s.completedSteps ++ [s.currentStep] }
    else s
  match env.ritualOf s.mood with
  | none => { s1 with uncaught := s1.uncaught + 1 }
  | some ritual =>
    if (s.currentStep : Int) < (ritual.steps.length : Int) - 1 then
      { s1 with currentStep := s.currentStep + 1 }
    else s1

/-- The handler `restartRitual`. -/
def restartRitual (s : State) : State :=
  { s with currentStep := 0, completedSteps := [], isAutoPlaying := true }

/-- The handler `reset`. -/
def reset (s : State) : State :=
  { s with timer := none, isAutoPlaying := false, view := .input, mood := .null,
           input := "", currentStep := 0, completedSteps := [], messages := [] }

/-! ## Remote calls -/

/-- What the awaited `/predict` call delivers to `analyze`. -/
inductive PredictOutcome where
  /-- The promise of `fetch` rejects (network error). -/
  | fetchRejected
  /-- The promise of `res.json()` rejects: the body is not JSON. -/
  | jsonRejected
  /-- The body parses to `null`, which cannot be destructured. -/
  | nullBody
  /-- The body parses to a value whose `emotion` property is `emotion`
  (`undefined` when the property is absent). -/
  | body (emotion : JsVal)
  deriving DecidableEq, Repr

/-- The text `analyze` passes to `alert` in its `catch`. -/
def connectNotice : String :=
  "Unable to connect. Please ensure the server is running."

/-- The greeting `analyze` seeds the transcript with. -/
def greeting (env : Env) (emotion : String) : Msg :=
  ⟨.bot, .str ("I sense you\x27re feeling " ++ env.toLowerCase emotion ++
    ". Let\x27s work through this together.")⟩

/-- The field `text` of a log entry:
`input.substring(0, 50) + (input.length > 50 ? "..." : "")`. -/
def excerpt (input : String) : List Nat :=
  (utf16 input).take 50 ++ (if (utf16 input).length > 50 then utf16 "..." else [])

/-- The part of `analyze` after the awaited call: `input` and `history` are the
values its closure captured, `now` is `Date.now()` and `date` the formatted
date. Setters called before an exception is thrown stay applied. -/
def analyzeResume (env : Env) (input : String) (history : List Entry) (now : Nat)
    (date : String) (outcome : PredictOutcome) (s : State) : State :=
  let s1 :=
    match outcome with
    | .fetchRejected => raiseAlert connectNotice s
    | .jsonRejected => raiseAlert connectNotice s
    | .nullBody => raiseAlert connectNotice s
    | .body emotion =>
      let s2 := { s with mood := emotion, view := .ritual, currentStep := 0,
                         completedSteps := [], isAutoPlaying := false }
      match emotion with
      | .str e =>
        { s2 with messages := [greeting env e],
                  history := ⟨now, date, emotion, excerpt input⟩ :: history.take 4 }
      | _ => raiseAlert connectNotice s2
  { s1 with loading := false }

/-- The handler `analyze`, run to completion with the outcome of its call. -/
def analyze (env : Env) (now : Nat) (date : String) (outcome : PredictOutcome)
    (s : State) : State :=
  if blank s.input then s
  else analyzeResume env s.input s.history now date outcome { s with loading := true }

/-- The JSON body `sendMsg` posts to `/chat`. -/
structure ChatRequest where
  text : String
  mood : JsVal
  history : List Msg
  user_email : JsVal
  emergency_email : String
  deriving DecidableEq, Repr

/-- What the awaited `/chat` call delivers to `sendMsg`. -/
inductive ChatOutcome where
  /-- The promise of `fetch` rejects (network error). -/
  | fetchRejected
  /-- The promise of `res.json()` rejects: the body is not JSON. -/
  | jsonRejected
  /-- The body parses to `null`, so that `data.reply` and `data.action` throw. -/
  | nullBody
  /-- The body parses to a value with properties `reply` and `action`
  (`undefined` when absent); `ok` is `res.ok`, the HTTP status being 2xx. -/
  | body (ok : Bool) (reply : JsVal) (action : JsVal)
  deriving DecidableEq, Repr

/-- The exchange ends in a failure the handler catches (the fetch rejects or
the body is not JSON), or in a body that parses to a non-null value whose
`reply` React can render. -/
def ChatOutcome.displayed : ChatOutcome → Bool
  | .fetchRejected => true
  | .jsonRejected => true
  | .nullBody => false
  | .body _ reply _ => reply.child

/-- The text of the assistant message appended in the `catch` of `sendMsg`. -/
def connectionError : String :=
  "Connection error."

/-- The text `sendMsg` passes to `alert`. -/
def emergencyNotice : String :=
  "⚠️ An emergency alert has been sent to your contact."

/-- The part of `sendMsg` before the awaited call: the state it sets and the
request it issues (`none` when it returns at once). -/
def sendMsgStart (s : State) : State × Option ChatRequest :=
  if blank s.chatInput then (s, none)
  else
    let newMsgs := s.messages ++ [⟨.user, .str s.chatInput⟩]
    ({ s with messages := newMsgs, chatInput := "" },
     some { text := s.chatInput, mood := s.mood,
            history := newMsgs.drop (newMsgs.length - 5),
            user_email := (match s.user with
                           | none => .undefined
                           | some email => email),
            emergency_email := s.emergencyEmail })

/-- The part of `sendMsg` after the awaited call, on the state of that time.
For a body that parses to `null`, the updater given to `setMessages` reads
`data.reply` only when React runs it: `data.action` throws into the `catch`,
which queues the notice, and the render that follows throws in the first
updater, outside the `try`, so that the component is unmounted with no message
appended. -/
def sendMsgResume (outcome : ChatOutcome) (s : State) : State :=
  match outcome with
  | .body _ reply action =>
    let s1 := { s with messages := s.messages ++ [⟨.bot, reply⟩] }
    if action = .str "email_sent" then raiseAlert emergencyNotice s1 else s1
  | .nullBody => unmount s
  | _ => { s with messages := s.messages ++ [⟨.bot, .str connectionError⟩] }

/-- The handler `sendMsg`, run to completion with the outcome of its call. -/
def sendMsg (outcome : ChatOutcome) (s : State) : State :=
  match sendMsgStart s with
  | (s1, none) => s1
  | (s1, some _) => sendMsgResume outcome s1

/-- The user types `text` into the chat box and sends it; the exchange
completes with `outcome`. -/
def send (env : Env) (s : State) (turn : String × ChatOutcome) : State :=
  event env (sendMsg turn.2) { s with chatInput := turn.1 }

/-- A session in the ritual view for `mood`, at step `step` with the steps
`done` completed and autoplay `auto`, and no timer pending. -/
def ritualState (mood : String) (step : Nat) (done : List Nat) (auto : Bool) : State :=
  { initialState [] with view := .ritual, mood := .str mood, currentStep := step,
                         completedSteps := done, isAutoPlaying := auto }

/-- A session in the chat view for `mood` with transcript `msgs`. -/
def chatState (mood : String) (msgs : List Msg) : State :=
  { initialState [] with view := .chat, mood := .str mood, messages := msgs }

/-- The state with a user signed in, so that the application is rendered and
not the login view. -/
def signedIn (s : State) : State :=
  { s with user := some (.str "user@example.com") }

/-- One check-in: text typed into the intake box, the clock readings and the
emotion the service answers. -/
structure CheckIn where
  text : String
  now : Nat
  date : String
  emotion : String
  deriving DecidableEq, Repr

/-- The log entry `analyze` builds for a check-in. -/
def CheckIn.entry (c : CheckIn) : Entry :=
  ⟨c.now, c.date, .str c.emotion, excerpt c.text⟩

/-- A successful check-in from the intake view: the session is reset (the only
way back to intake), the text typed, and `analyze` completes with the emotion. -/
def checkIn (env : Env) (s : State) (c : CheckIn) : State :=
  event env (analyze env c.now c.date (.body (.str c.emotion)))
    { event env reset s with input := c.text }

/-- The check-in number `n` of a sample run. -/
def sampleCheckIn (n : Nat) : CheckIn :=
  ⟨"long day", n, "Nov 4", "Calm"⟩

/-! ## Sessions as runs of events -/

/-- The events that drive the ritual engine. -/
inductive Event where
  /-- A successful check-in (`checkIn`). -/
  | checkIn (c : CheckIn)
  /-- A click on the autoplay button. -/
  | toggleAutoPlay
  /-- The pending autoplay timeout fires. -/
  | timeout
  /-- A click on the dot of step `index`. -/
  | goToStep (index : Nat)
  /-- A click on the button that completes the step. -/
  | completeCurrentStep
  /-- A click on the restart button. -/
  | restartRitual
  /-- A click on the home button. -/
  | reset
  deriving DecidableEq, Repr

/-- When an event can happen: a check-in needs a non-blank text and answers a
mood that has a ritual, a timeout needs a pending timer, and `goToStep` takes an
index of the ritual of the active mood (the dots rendered are those of
`ritual.steps`). -/
def Event.enabled (env : Env) (s : State) : Event → Bool
  | .checkIn c => !blank c.text && (env.ritualOf (.str c.emotion)).isSome
  | .timeout => s.timer.isSome
  | .goToStep index =>
    match env.ritualOf s.mood with
    | some ritual => decide (index < ritual.steps.length)
    | none => false
  | _ => true

/-- The state after one event. -/
def step (env : Env) (s : State) : Event → State
  | .checkIn c => checkIn env s c
  | .toggleAutoPlay => event env toggleAutoPlay s
  | .timeout =>
    match s.timer with
    | some captured => event env (onTimeout captured) s
    | none => s
  | .goToStep index => event env (goToStep index) s
  | .completeCurrentStep => event env (completeCurrentStep env) s
  | .restartRitual => event env restartRitual s
  | .reset => event env reset s

/-- The state after a run of events; `none` when one of them cannot happen in
the state it meets. -/
def run (env : Env) : State → List Event → Option State
  | s, [] => some s
  | s, e :: rest => if e.enabled env s then run env (step env s e) rest else none

/-- The current step and the completed steps are indices of the ritual of the
mood, when the mood has one. -/
def StepsInRange (env : Env) (s : State) : Prop :=
  ∀ r, env.ritualOf s.mood = some r →
    s.currentStep < r.steps.length ∧ ∀ j ∈ s.completedSteps, j < r.steps.length

/-- A pending timer captured the current step, and that step is before the last
one of the ritual of the mood. -/
def TimerSound (env : Env) (s : State) : Prop :=
  ∀ c, s.timer = some c →
    c = s.currentStep ∧ ∃ r, env.ritualOf s.mood = some r ∧ c + 1 < r.steps.length

/-- A sample run over the `Anxious` ritual: a check-in, autoplay for two
firings, a jump to step 4, its completion, a restart and one more firing. -/
def sampleRun : List Event :=
  [.checkIn ⟨"my heart is racing", 1, "Nov 4", "Anxious"⟩, .toggleAutoPlay,
   .timeout, .timeout, .goToStep 4, .completeCurrentStep, .restartRitual, .timeout]

end MoodScape

namespace MoodScape

/-! ## The effect passes -/

theorem autoplayEffect_off (env : Env) (s : State) (h : s.isAutoPlaying = false) :
    autoplayEffect env s = s := by
  simp [autoplayEffect, h]

theorem autoplayEffect_arm (env : Env) (M : String) (r : Ritual) (s : State)
    (hM : M ≠ "") (hr : env.ritualOf (.str M) = some r) (hmood : s.mood = .str M)
    (hauto : s.isAutoPlaying = true) (hlt : s.currentStep + 1 < r.steps.length) :
    autoplayEffect env s = { s with timer := some s.currentStep } := by
  have hc : ¬ ((s.currentStep : Int) ≥ (r.steps.length : Int) - 1) := by omega
  simp [autoplayEffect, hauto, hmood, JsVal.truthy, hM, hr, hc]

theorem autoplayEffect_last (env : Env) (M : String) (r : Ritual) (s : State)
    (hM : M ≠ "") (hr : env.ritualOf (.str M) = some r) (hmood : s.mood = .str M)
    (hauto : s.isAutoPlaying = true) (hge : r.steps.length ≤ s.currentStep + 1) :
    autoplayEffect env s = { s with isAutoPlaying := false } := by
  have hc : (s.currentStep : Int) ≥ (r.steps.length : Int) - 1 := by omega
  simp [autoplayEffect, hauto, hmood, JsVal.truthy, hM, hr, hc]

theorem runEffects_succ (env : Env) (n : Nat) (prev : Bool × Nat × JsVal) (s : State) :
    runEffects env (n + 1) prev s =
      if deps s = prev then s
      else runEffects env n (deps s) (autoplayEffect env (clearAutoplayTimer s)) :=
  rfl

theorem commit_same (env : Env) (prev : Bool × Nat × JsVal) (s : State)
    (h : deps s = prev) : commit env prev s = s := by
  rw [commit, runEffects_succ, if_pos h]

theorem commit_off (env : Env) (prev : Bool × Nat × JsVal) (s : State)
    (h : s.isAutoPlaying = false) :
    commit env prev s = if deps s = prev then s else clearAutoplayTimer s := by
  by_cases hd : deps s = prev
  · rw [commit_same env prev s hd, if_pos hd]
  · have h1 : autoplayEffect env (clearAutoplayTimer s) = clearAutoplayTimer s :=
      autoplayEffect_off env _ h
    have e : deps (clearAutoplayTimer s) = deps s := rfl
    rw [commit, runEffects_succ, if_neg hd, h1, runEffects_succ, if_pos e, if_neg hd]

theorem commit_arm (env : Env) (M : String) (r : Ritual) (prev : Bool × Nat × JsVal)
    (s : State) (hM : M ≠ "") (hr : env.ritualOf (.str M) = some r)
    (hmood : s.mood = .str M) (hauto : s.isAutoPlaying = true)
    (hlt : s.currentStep + 1 < r.steps.length) (hd : deps s ≠ prev) :
    commit env prev s = { s with timer := some s.currentStep } := by
  have h1 : autoplayEffect env (clearAutoplayTimer s) = { s with timer := some s.currentStep } :=
    autoplayEffect_arm env M r (clearAutoplayTimer s) hM hr hmood hauto hlt
  have e : deps { s with timer := some s.currentStep } = deps s := rfl
  rw [commit, runEffects_succ, if_neg hd, h1, runEffects_succ, if_pos e]

theorem commit_last (env : Env) (M : String) (r : Ritual) (prev : Bool × Nat × JsVal)
    (s : State) (hM : M ≠ "") (hr : env.ritualOf (.str M) = some r)
    (hmood : s.mood = .str M) (hauto : s.isAutoPlaying = true)
    (hge : r.steps.length ≤ s.currentStep + 1) (hd : deps s ≠ prev) :
    commit env prev s = { s with isAutoPlaying := false, timer := none } := by
  have h1 : autoplayEffect env (clearAutoplayTimer s)
      = { s with isAutoPlaying := false, timer := none } :=
    autoplayEffect_last env M r (clearAutoplayTimer s) hM hr hmood hauto hge
  have h2 : autoplayEffect env
      (clearAutoplayTimer { s with isAutoPlaying := false, timer := none })
      = { s with isAutoPlaying := false, timer := none } :=
    autoplayEffect_off env _ rfl
  have hne : deps { s with isAutoPlaying := false, timer := none } ≠ deps s := by
    simp [deps, hauto]
  rw [commit, runEffects_succ, if_neg hd, h1, runEffects_succ, if_neg hne, h2]
  rfl

/-- The four outcomes of the effect: it returns at once, throws, turns autoplay
off, or arms a timer for the current step before the last step. -/
theorem autoplayEffect_cases (env : Env) (s : State) :
    autoplayEffect env s = s ∨ autoplayEffect env s = unmount s ∨
    autoplayEffect env s = { s with isAutoPlaying := false } ∨
    (autoplayEffect env s = { s with timer := some s.currentStep } ∧
      ∃ r, env.ritualOf s.mood = some r ∧ s.currentStep + 1 < r.steps.length) := by
  unfold autoplayEffect
  by_cases h1 : (!s.isAutoPlaying || !s.mood.truthy) = true
  · rw [if_pos h1]; exact Or.inl rfl
  · rw [if_neg h1]
    cases hr : env.ritualOf s.mood with
    | none =>
      dsimp only
      by_cases h2 : env.ritualInherited s.mood = true
      · rw [if_pos h2]; exact Or.inr (Or.inl rfl)
      · rw [if_neg h2]; exact Or.inl rfl
    | some r =>
      dsimp only
      by_cases h3 : (s.currentStep : Int) ≥ (r.steps.length : Int) - 1
      · rw [if_pos h3]; exact Or.inr (Or.inr (Or.inl rfl))
      · rw [if_neg h3]
        exact Or.inr (Or.inr (Or.inr ⟨rfl, r, rfl, by omega⟩))

/-- The effect changes its own dependencies only by turning autoplay off. -/
theorem autoplayEffect_deps (env : Env) (s : State) :
    deps (autoplayEffect env s) = deps s ∨ (autoplayEffect env s).isAutoPlaying = false := by
  rcases autoplayEffect_cases env s with h | h | h | ⟨h, -⟩ <;> rw [h]
  · exact Or.inl rfl
  · exact Or.inl rfl
  · exact Or.inr rfl
  · exact Or.inl rfl

/-- Two effect passes reach a state the effect leaves alone: more fuel changes
nothing. -/
theorem runEffects_fuel (env : Env) (n : Nat) (prev : Bool × Nat × JsVal) (s : State) :
    runEffects env (n + 2) prev s = runEffects env 2 prev s := by
  by_cases hd : deps s = prev
  · rw [runEffects_succ, if_pos hd, runEffects_succ, if_pos hd]
  · rw [runEffects_succ, if_neg hd, runEffects_succ env 1, if_neg hd]
    have hoff := autoplayEffect_deps env (clearAutoplayTimer s)
    generalize autoplayEffect env (clearAutoplayTimer s) = s1 at hoff
    by_cases h1 : deps s1 = deps s
    · rw [runEffects_succ, if_pos h1, runEffects_succ, if_pos h1]
    · rw [runEffects_succ, if_neg h1, runEffects_succ env 0, if_neg h1]
      cases n with
      | zero => rfl
      | succ m =>
        have h2 : s1.isAutoPlaying = false := hoff.resolve_left h1
        have e : deps (autoplayEffect env (clearAutoplayTimer s1)) = deps s1 := by
          rw [autoplayEffect_off env (clearAutoplayTimer s1) h2]; rfl
        rw [runEffects_succ, if_pos e]; rfl

/-- The effect writes only `isAutoPlaying` and `timer`, and `mounted` and
`uncaught` when it throws. -/
theorem autoplayEffect_frame (env : Env) (s : State) :
    autoplayEffect env s = { s with isAutoPlaying := (autoplayEffect env s).isAutoPlaying,
                                    timer := (autoplayEffect env s).timer,
                                    mounted := (autoplayEffect env s).mounted,
                                    uncaught := (autoplayEffect env s).uncaught } := by
  rcases autoplayEffect_cases env s with h | h | h | ⟨h, -⟩
  all_goals (rw [h]; try rfl)

/-- The effect passes write only `isAutoPlaying`, `timer`, `mounted` and
`uncaught`. -/
theorem runEffects_frame (env : Env) (n : Nat) :
    ∀ (prev : Bool × Nat × JsVal) (s : State),
      runEffects env n prev s = { s with isAutoPlaying := (runEffects env n prev s).isAutoPlaying,
                                         timer := (runEffects env n prev s).timer,
                                         mounted := (runEffects env n prev s).mounted,
                                         uncaught := (runEffects env n prev s).uncaught } := by
  induction n with
  | zero => intro prev s; rfl
  | succ n ih =>
    intro prev s
    rw [runEffects_succ]
    split_ifs
    · rfl
    · have h1 := ih (deps s) (autoplayEffect env (clearAutoplayTimer s))
      have h2 := autoplayEffect_frame env (clearAutoplayTimer s)
      generalize runEffects env n (deps s) (autoplayEffect env (clearAutoplayTimer s)) = t at h1 ⊢
      generalize autoplayEffect env (clearAutoplayTimer s) = u at h1 h2
      rw [h1, h2]
      rfl

/-- The effects after a handler change, beyond what the handler set, only
`isAutoPlaying` and `timer`, and `mounted` and `uncaught` when the effect
throws. -/
theorem dispatch_frame (env : Env) (h : State → State) (s : State) :
    dispatch env h s = { h s with isAutoPlaying := (dispatch env h s).isAutoPlaying,
                                  timer := (dispatch env h s).timer,
                                  mounted := (dispatch env h s).mounted,
                                  uncaught := (dispatch env h s).uncaught } :=
  runEffects_frame env 2 (deps s) (h s)

/-- An event changes, beyond what its handler set, only `isAutoPlaying`, `timer`,
`mounted` and `uncaught`. -/
theorem event_frame (env : Env) (h : State → State) (s : State) :
    event env h s = { h s with isAutoPlaying := (event env h s).isAutoPlaying,
                               timer := (event env h s).timer,
                               mounted := (event env h s).mounted,
                               uncaught := (event env h s).uncaught } := by
  unfold event
  split_ifs
  · rfl
  · exact dispatch_frame env h s

/-- When the render after the handler does not throw, the event is the handler
followed by the effects. -/
theorem event_eq_dispatch (env : Env) (h : State → State) (s : State)
    (hr : renderThrows env (h s) = false) : event env h s = dispatch env h s := by
  simp [event, hr]

/-- The render reads the user, the mood, the view, the log and the transcript. -/
theorem renderThrows_congr (env : Env) (a b : State) (hu : a.user = b.user)
    (hm : a.mood = b.mood) (hv : a.view = b.view) (hh : a.history = b.history)
    (hmsg : a.messages = b.messages) : renderThrows env a = renderThrows env b := by
  simp only [renderThrows, hu, hm, hv, hh, hmsg]

/-- Outside the chat view the render does not read the transcript. -/
theorem renderThrows_congr_not_chat (env : Env) (a b : State) (hu : a.user = b.user)
    (hm : a.mood = b.mood) (hv : a.view = b.view) (hh : a.history = b.history)
    (hc : b.view ≠ .chat) : renderThrows env a = renderThrows env b := by
  have h1 : (b.view == View.chat) = false := by simpa using hc
  simp only [renderThrows, hu, hm, hv, hh, h1, Bool.false_and, Bool.or_false]

/-! ## Check-in: failed mood inference -/

/-- When the call itself fails (the fetch rejects, the body is not JSON, or it
parses to `null`), `analyze` only raises the connectivity notice. -/
theorem analyze_rejected (env : Env) (now : Nat) (date : String) (o : PredictOutcome)
    (s : State) (hin : blank s.input = false)
    (ho : o = .fetchRejected ∨ o = .jsonRejected ∨ o = .nullBody) :
    dispatch env (analyze env now date o) s
      = { s with loading := false, alerts := s.alerts ++ [connectNotice] } := by
  have h : analyze env now date o s
      = { s with loading := false, alerts := s.alerts ++ [connectNotice] } := by
    rcases ho with rfl | rfl | rfl <;> simp [analyze, hin, analyzeResume, raiseAlert]
  rw [dispatch, h]
  exact commit_same env _ _ rfl

/-- C1, evaluated on the code: the intake text is "I feel tired" and the body of
the `/predict` response is the JSON object with no `emotion` field. The setters
called before `emotion.toLowerCase()` throws stay applied, so the view is
`ritual` and the mood is `undefined`, while the connectivity notice is raised. -/
theorem analyze_body_without_emotion :
    (dispatch (appEnv String.toLower)
        (analyze (appEnv String.toLower) 1762300000000 "Nov 4" (.body .undefined))
        { initialState [] with input := "I feel tired" })
      = { initialState [] with input := "I feel tired", view := .ritual, mood := .undefined,
                               alerts := [connectNotice] } := by
  decide

/-! ## Autoplay -/

/-- C2. Let the mood be registered with script `r`, and let a render bring the
component to a state `s` with autoplay on at step `i = s.currentStep` (the
dependencies differ from `prev`, those of the previous render, so the effect
runs). If `i < N - 1`, a timer capturing `i` is armed, and its one firing
yields `currentStep = i + 1` with exactly `i` appended to `completedSteps`.
If `i = N - 1`, no timer is armed, `currentStep` and `completedSteps` are
unchanged and autoplay is off. -/
theorem autoplay_timer_step (env : Env) (M : String) (r : Ritual)
    (prev : Bool × Nat × JsVal) (s : State)
    (hM : M ≠ "") (hr : env.ritualOf (.str M) = some r) (hmood : s.mood = .str M)
    (hauto : s.isAutoPlaying = true) (hprev : deps s ≠ prev) :
    (s.currentStep + 1 < r.steps.length →
      (commit env prev s).timer = some s.currentStep ∧
      ∃ s', fireTimer env (commit env prev s) = some s' ∧
        s'.currentStep = s.currentStep + 1 ∧
        s'.completedSteps = s.completedSteps ++ [s.currentStep] ∧
        s.currentStep ∈ s'.completedSteps) ∧
    (s.currentStep + 1 = r.steps.length →
      (commit env prev s).timer = none ∧
      (commit env prev s).currentStep = s.currentStep ∧
      (commit env prev s).completedSteps = s.completedSteps ∧
      (commit env prev s).isAutoPlaying = false) := by
  constructor
  · intro hlt
    rw [commit_arm env M r prev s hM hr hmood hauto hlt hprev]
    refine ⟨rfl, _, rfl, ?_⟩
    rw [dispatch]
    set t : State := onTimeout s.currentStep { s with timer := some s.currentStep } with ht
    have htd : deps t ≠ deps { s with timer := some s.currentStep } := by
      simp [ht, deps, onTimeout]
    have hcur : t.currentStep = s.currentStep + 1 := rfl
    have hdone : t.completedSteps = s.completedSteps ++ [s.currentStep] := rfl
    by_cases hl : t.currentStep + 1 < r.steps.length
    · rw [commit_arm env M r _ t hM hr hmood hauto hl htd]
      exact ⟨hcur, hdone, by simp [hdone]⟩
    · rw [commit_last env M r _ t hM hr hmood hauto (by omega) htd]
      exact ⟨hcur, hdone, by simp [hdone]⟩
  · intro heq
    rw [commit_last env M r prev s hM hr hmood hauto (by omega) hprev]
    exact ⟨rfl, rfl, rfl, rfl⟩

/-- C2 at the `Anxious` ritual of `App.jsx` (five steps): autoplay switched on at
step 3, and at step 4. -/
theorem autoplay_timer_step_witness :
    (∃ s', fireTimer (appEnv id)
        (commit (appEnv id) (false, 3, .str "Anxious") (ritualState "Anxious" 3 [] true))
          = some s' ∧
        s'.currentStep = 4 ∧ s'.completedSteps = [3] ∧ 3 ∈ s'.completedSteps) ∧
    (commit (appEnv id) (false, 4, .str "Anxious")
        (ritualState "Anxious" 4 [] true)).isAutoPlaying = false :=
  ⟨((autoplay_timer_step (appEnv id) "Anxious" _ (false, 3, .str "Anxious")
      (ritualState "Anxious" 3 [] true) (by decide) rfl rfl rfl (by decide)).1
        (by decide)).2,
   ((autoplay_timer_step (appEnv id) "Anxious" _ (false, 4, .str "Anxious")
      (ritualState "Anxious" 4 [] true) (by decide) rfl rfl rfl (by decide)).2
        (by decide)).2.2.2⟩

/-- One firing during an autoplay run: at step `k`, with the timer for `k`
pending, the firing moves to step `k + 1` and marks `k`; autoplay stays on
with a new timer unless `k + 1` is the last step. -/
theorem fireTimer_run (env : Env) (M : String) (r : Ritual) (k : Nat) (t : State)
    (hM : M ≠ "") (hr : env.ritualOf (.str M) = some r) (hmood : t.mood = .str M)
    (hcur : t.currentStep = k) (hauto : t.isAutoPlaying = true) (htimer : t.timer = some k)
    (hk : k + 1 < r.steps.length) :
    ∃ t', fireTimer env t = some t' ∧ t'.mood = .str M ∧ t'.currentStep = k + 1 ∧
      t'.completedSteps = t.completedSteps ++ [k] ∧
      t'.isAutoPlaying = decide (k + 2 < r.steps.length) ∧
      t'.timer = (if k + 2 < r.steps.length then some (k + 1) else none) := by
  refine ⟨dispatch env (onTimeout k) t, by simp [fireTimer, htimer], ?_⟩
  rw [dispatch]
  have htd : deps (onTimeout k t) ≠ deps t := by simp [deps, onTimeout]
  by_cases hl : k + 2 < r.steps.length
  · rw [commit_arm env M r _ (onTimeout k t) hM hr hmood hauto
      (by simpa [onTimeout, hcur] using hl) htd]
    simp [onTimeout, hmood, hcur, hl, hauto]
  · rw [commit_last env M r _ (onTimeout k t) hM hr hmood hauto
      (by simp only [onTimeout, hcur]; omega) htd]
    simp [onTimeout, hmood, hcur, hl]

/-- An autoplay run of `j` firings from step `k` to the last step. -/
theorem fireTimes_run (env : Env) (M : String) (r : Ritual) (hM : M ≠ "")
    (hr : env.ritualOf (.str M) = some r) :
    ∀ (j k : Nat) (t : State), t.mood = .str M → t.currentStep = k →
      t.isAutoPlaying = decide (k + 1 < r.steps.length) →
      t.timer = (if k + 1 < r.steps.length then some k else none) →
      k + j + 1 = r.steps.length →
      ∃ t', fireTimes env j t = some t' ∧ t'.currentStep = k + j ∧
        t'.completedSteps = t.completedSteps ++ (List.range j).map (k + ·) ∧
        t'.isAutoPlaying = false ∧ t'.timer = none := by
  intro j
  induction j with
  | zero =>
    intro k t _ hcur hauto htimer hk
    have hn : ¬ (k + 1 < r.steps.length) := by omega
    exact ⟨t, rfl, by simpa using hcur, by simp, by simpa [hn] using hauto,
      by simpa [hn] using htimer⟩
  | succ j ih =>
    intro k t hmood hcur hauto htimer hk
    have hlt : k + 1 < r.steps.length := by omega
    obtain ⟨t1, hfire, hm1, hc1, hd1, ha1, ht1⟩ :=
      fireTimer_run env M r k t hM hr hmood hcur (by simpa [hlt] using hauto)
        (by simpa [hlt] using htimer) hlt
    obtain ⟨t2, hrun, hc2, hd2, ha2, ht2⟩ := ih (k + 1) t1 hm1 hc1 ha1 ht1 (by omega)
    refine ⟨t2, by simp [fireTimes, hfire, hrun], by omega, ?_, ha2, ht2⟩
    rw [hd2, hd1, List.range_succ_eq_map, List.append_assoc]
    simp [List.map_map, Function.comp_def, Nat.add_assoc, Nat.add_comm 1]

/-- The state `analyze` sets when the service answers the string `e`. -/
theorem analyze_success (env : Env) (now : Nat) (date : String) (e : String) (s : State)
    (hin : blank s.input = false) :
    analyze env now date (.body (.str e)) s
      = { s with loading := false, mood := .str e, view := .ritual, currentStep := 0,
                 completedSteps := [], isAutoPlaying := false, messages := [greeting env e],
                 history := ⟨now, date, .str e, excerpt s.input⟩ :: s.history.take 4 } := by
  simp [analyze, hin, analyzeResume]

/-- An event whose handler leaves autoplay off changes at most the pending
timer beyond what the handler set. -/
theorem dispatch_off (env : Env) (h : State → State) (s : State)
    (hoff : (h s).isAutoPlaying = false) :
    ∃ tm, dispatch env h s = { h s with timer := tm } ∧ (tm = none ∨ tm = (h s).timer) := by
  rw [dispatch, commit_off env _ _ hoff]
  split_ifs
  · exact ⟨(h s).timer, rfl, Or.inr rfl⟩
  · exact ⟨none, rfl, Or.inl rfl⟩

/-- C3. For a mood registered with a script of `N ≥ 1` steps and every prior
state with a non-blank intake text: the successful check-in leaves the ritual
at step 0 with nothing completed and autoplay off; then, after `toggleAutoPlay`,
the timer can fire `N - 1` times in a row, and the run ends at step `N - 1`
with completed steps `[0, ..., N - 2]` and autoplay off (no timer pending). -/
theorem checkin_then_autoplay_run (env : Env) (M : String) (r : Ritual) (now : Nat)
    (date : String) (s : State) (hM : M ≠ "") (hr : env.ritualOf (.str M) = some r)
    (hN : 1 ≤ r.steps.length) (hin : blank s.input = false) :
    ((dispatch env (analyze env now date (.body (.str M))) s).currentStep = 0 ∧
     (dispatch env (analyze env now date (.body (.str M))) s).completedSteps = [] ∧
     (dispatch env (analyze env now date (.body (.str M))) s).isAutoPlaying = false) ∧
    ∃ t, fireTimes env (r.steps.length - 1)
          (dispatch env toggleAutoPlay
            (dispatch env (analyze env now date (.body (.str M))) s)) = some t ∧
      t.currentStep = r.steps.length - 1 ∧
      t.completedSteps = List.range (r.steps.length - 1) ∧
      t.isAutoPlaying = false ∧ t.timer = none := by
  obtain ⟨tm, h0, -⟩ := dispatch_off env (analyze env now date (.body (.str M))) s
    (by rw [analyze_success env now date M s hin])
  rw [analyze_success env now date M s hin] at h0
  generalize dispatch env (analyze env now date (.body (.str M))) s = s0 at h0
  have hmood : s0.mood = .str M := by rw [h0]
  have hcur : s0.currentStep = 0 := by rw [h0]
  have hdone : s0.completedSteps = [] := by rw [h0]
  have hauto : s0.isAutoPlaying = false := by rw [h0]
  refine ⟨⟨hcur, hdone, hauto⟩, ?_⟩
  clear h0
  have htd : deps (toggleAutoPlay s0) ≠ deps s0 := by simp [deps, toggleAutoPlay]
  have hta : (toggleAutoPlay s0).isAutoPlaying = true := by simp [toggleAutoPlay, hauto]
  have key : ∃ t0, dispatch env toggleAutoPlay s0 = t0 ∧ t0.mood = .str M ∧
      t0.currentStep = 0 ∧ t0.completedSteps = [] ∧
      t0.isAutoPlaying = decide (0 + 1 < r.steps.length) ∧
      t0.timer = (if 0 + 1 < r.steps.length then some 0 else none) := by
    refine ⟨_, rfl, ?_⟩
    rw [dispatch]
    by_cases hl : 0 + 1 < r.steps.length
    · rw [commit_arm env M r _ (toggleAutoPlay s0) hM hr hmood hta
        (by simpa [toggleAutoPlay, hcur] using hl) htd]
      simp [toggleAutoPlay, hmood, hcur, hdone, hl, hauto]
    · rw [commit_last env M r _ (toggleAutoPlay s0) hM hr hmood hta
        (by simp only [toggleAutoPlay, hcur]; omega) htd]
      simp [toggleAutoPlay, hmood, hcur, hdone, hl]
  obtain ⟨t0, ht0, hm0, hc0, hd0, ha0, htm0⟩ := key
  rw [ht0]
  obtain ⟨t, hrun, hc, hd, ha, htm⟩ :=
    fireTimes_run env M r hM hr (r.steps.length - 1) 0 t0 hm0 hc0 ha0 htm0 (by omega)
  refine ⟨t, hrun, by omega, ?_, ha, htm⟩
  rw [hd, hd0]
  simp

/-- C3 at the four-step `Anxious` ritual of `rituals.js`: after the check-in,
`toggleAutoPlay` and three firings, the run ends at step 3 with steps 0, 1, 2
completed and autoplay off. -/
theorem checkin_then_autoplay_run_witness :
    ∃ t, fireTimes ⟨RITUALS_rituals_js, id⟩ 3
          (dispatch ⟨RITUALS_rituals_js, id⟩ toggleAutoPlay
            (dispatch ⟨RITUALS_rituals_js, id⟩
              (analyze ⟨RITUALS_rituals_js, id⟩ 0 "Nov 4" (.body (.str "Anxious")))
              { initialState [] with input := "my heart is racing" })) = some t ∧
      t.currentStep = 3 ∧ t.completedSteps = [0, 1, 2] ∧
      t.isAutoPlaying = false ∧ t.timer = none :=
  (checkin_then_autoplay_run ⟨RITUALS_rituals_js, id⟩ "Anxious" _ 0 "Nov 4"
    { initialState [] with input := "my heart is racing" }
    (by decide) rfl (by decide) (by decide)).2

/-! ## Reflection chat -/

/-- With a non-blank chat text, `sendMsg` is its resumption on the state with
the user message appended and the chat box cleared. -/
theorem sendMsg_eq (o : ChatOutcome) (s : State) (hin : blank s.chatInput = false) :
    sendMsg o s = sendMsgResume o
      { s with messages := s.messages ++ [⟨.user, .str s.chatInput⟩], chatInput := "" } := by
  simp [sendMsg, sendMsgStart, hin]

/-- The resumption of `sendMsg` appends one assistant message, unless the body
parses to `null`: the `reply` property of the parsed body, or the
connection-error text. -/
theorem sendMsgResume_messages (o : ChatOutcome) (s : State) :
    o ≠ .nullBody →
    (sendMsgResume o s).messages = s.messages ++
      [⟨.bot, match o with
              | .body _ reply _ => reply
              | _ => .str connectionError⟩] := by
  intro ho
  cases o with
  | nullBody => exact absurd rfl ho
  | body ok reply action =>
    simp only [sendMsgResume]
    split_ifs <;> rfl
  | fetchRejected => rfl
  | jsonRejected => rfl

theorem sendMsgResume_deps (o : ChatOutcome) (s : State) :
    deps (sendMsgResume o s) = deps s := by
  cases o with
  | body ok reply action =>
    simp only [sendMsgResume]
    split_ifs <;> rfl
  | nullBody => rfl
  | fetchRejected => rfl
  | jsonRejected => rfl

/-- The resumption of `sendMsg` leaves the user, the mood, the view and the log
as they are. -/
theorem sendMsgResume_frame (o : ChatOutcome) (s : State) :
    (sendMsgResume o s).user = s.user ∧ (sendMsgResume o s).mood = s.mood ∧
    (sendMsgResume o s).view = s.view ∧ (sendMsgResume o s).history = s.history := by
  cases o with
  | body ok reply action =>
    simp only [sendMsgResume]
    split_ifs <;> exact ⟨rfl, rfl, rfl, rfl⟩
  | nullBody => exact ⟨rfl, rfl, rfl, rfl⟩
  | fetchRejected => exact ⟨rfl, rfl, rfl, rfl⟩
  | jsonRejected => exact ⟨rfl, rfl, rfl, rfl⟩

/-- Unless the body parses to `null`, the resumption of `sendMsg` throws
nothing. -/
theorem sendMsgResume_mounted (o : ChatOutcome) (s : State) (ho : o ≠ .nullBody) :
    (sendMsgResume o s).mounted = s.mounted ∧ (sendMsgResume o s).uncaught = s.uncaught := by
  cases o with
  | nullBody => exact absurd rfl ho
  | body ok reply action =>
    simp only [sendMsgResume]
    split_ifs <;> exact ⟨rfl, rfl⟩
  | fetchRejected => exact ⟨rfl, rfl⟩
  | jsonRejected => exact ⟨rfl, rfl⟩

/-- The transcript and the alerts after a send are those its handler set. -/
theorem send_messages (env : Env) (s : State) (turn : String × ChatOutcome)
    (hin : blank turn.1 = false) :
    (send env s turn).messages = (sendMsgResume turn.2
      { s with messages := s.messages ++ [⟨.user, .str turn.1⟩], chatInput := "" }).messages ∧
    (send env s turn).alerts = (sendMsgResume turn.2
      { s with messages := s.messages ++ [⟨.user, .str turn.1⟩], chatInput := "" }).alerts := by
  have h := event_frame env (sendMsg turn.2) { s with chatInput := turn.1 }
  rw [sendMsg_eq _ _ hin] at h
  rw [send, h]
  exact ⟨rfl, rfl⟩

/-- Messages React can render, appended to the transcript of a state that
renders, give a state that renders. -/
theorem renderThrows_append (env : Env) (s a : State) (ms : List Msg)
    (hu : a.user = s.user) (hm : a.mood = s.mood) (hv : a.view = s.view)
    (hh : a.history = s.history) (hmsg : a.messages = s.messages ++ ms)
    (hms : ∀ m ∈ ms, m.text.child = true) (hr : renderThrows env s = false) :
    renderThrows env a = false := by
  have hany : ms.any (fun msg => !msg.text.child) = false := by
    rw [List.any_eq_false]
    intro m hmem
    simp [hms m hmem]
  simp only [renderThrows, hu, hm, hv, hh, hmsg, List.any_append, hany, Bool.or_false]
  simpa only [renderThrows] using hr

/-- A send whose exchange completes with a failure caught by the handler or
with a reply React can render, from a state that renders: the event is the
handler, and the state after renders. -/
theorem send_ok (env : Env) (s : State) (turn : String × ChatOutcome)
    (hin : blank turn.1 = false) (hout : turn.2.displayed = true)
    (hr : renderThrows env s = false) :
    send env s turn = sendMsgResume turn.2
      { s with messages := s.messages ++ [⟨.user, .str turn.1⟩], chatInput := "" } ∧
    renderThrows env (send env s turn) = false := by
  have ho : turn.2 ≠ .nullBody := by
    intro h; rw [h] at hout; cases hout
  have hchild : (match turn.2 with
      | .body _ reply _ => reply
      | _ => JsVal.str connectionError).child = true := by
    cases h : turn.2 with
    | body ok reply action => rw [h] at hout; exact hout
    | nullBody => rfl
    | fetchRejected => rfl
    | jsonRejected => rfl
  obtain ⟨fu, fm, fv, fh⟩ := sendMsgResume_frame turn.2
    { s with messages := s.messages ++ [⟨.user, .str turn.1⟩], chatInput := "" }
  have hrt : renderThrows env (sendMsgResume turn.2
      { s with messages := s.messages ++ [⟨.user, .str turn.1⟩], chatInput := "" }) = false := by
    refine renderThrows_append env s _
      [⟨.user, .str turn.1⟩, ⟨.bot, match turn.2 with
                                    | .body _ reply _ => reply
                                    | _ => .str connectionError⟩] fu fm fv fh ?_ ?_ hr
    · rw [sendMsgResume_messages _ _ ho]
      simp
    · intro m hmem
      simp only [List.mem_cons, List.mem_singleton, List.not_mem_nil, or_false] at hmem
      rcases hmem with rfl | rfl
      · rfl
      · exact hchild
  have heq : send env s turn = sendMsgResume turn.2
      { s with messages := s.messages ++ [⟨.user, .str turn.1⟩], chatInput := "" } := by
    rw [send, event_eq_dispatch env _ _ (by rw [sendMsg_eq _ _ hin]; exact hrt), dispatch,
      sendMsg_eq _ _ hin]
    exact commit_same env _ _ (sendMsgResume_deps _ _)
  exact ⟨heq, by rw [heq]; exact hrt⟩

/-- C4, as stated, fails: the `/chat` response has a non-success status and a
JSON body without a `reply` property (such as an error detail). The assistant
message appended carries `undefined`, not the connection-error text. -/
theorem send_error_body_not_notice :
    (send (appEnv id) (chatState "Sad" []) ("hello", .body false .undefined .undefined)).messages
        = [⟨.user, .str "hello"⟩, ⟨.bot, .undefined⟩] ∧
    (send (appEnv id) (chatState "Sad" []) ("hello", .body false .undefined .undefined)).messages
        ≠ [⟨.user, .str "hello"⟩, ⟨.bot, .str connectionError⟩] := by
  decide

/-- C4, amended. Take `k` sends with non-blank text, each completed before the
next, from a session that is displayed (its render does not throw), where each
exchange ends in a rejected fetch, in a body that is not JSON, or in a body
that parses to a non-null value whose `reply` React can display (a string, or
`undefined` when the property is absent). Then the transcript is the one
before followed by `k` pairs in order: the user message with the text sent,
then one assistant message, which carries the `reply` property of the parsed
body whatever the HTTP status, and the connection-error text when the fetch
rejected or the body was not JSON. No exception escapes and the component
stays as it was mounted. -/
theorem sends_transcript (env : Env) (turns : List (String × ChatOutcome)) (s : State)
    (htext : ∀ turn ∈ turns, blank turn.1 = false)
    (hout : ∀ turn ∈ turns, turn.2.displayed = true)
    (hr : renderThrows env s = false) :
    (turns.foldl (send env) s).messages = s.messages ++
      turns.flatMap (fun turn =>
        [⟨.user, .str turn.1⟩,
         ⟨.bot, match turn.2 with
                | .body _ reply _ => reply
                | _ => .str connectionError⟩]) ∧
    (turns.foldl (send env) s).mounted = s.mounted ∧
    (turns.foldl (send env) s).uncaught = s.uncaught := by
  induction turns generalizing s with
  | nil => simp
  | cons turn rest ih =>
    have h1 : blank turn.1 = false := htext turn (List.mem_cons_self _ _)
    have h2 := hout turn (List.mem_cons_self _ _)
    have ho : turn.2 ≠ .nullBody := by
      intro h; rw [h] at h2; cases h2
    obtain ⟨heq, hrt⟩ := send_ok env s turn h1 h2 hr
    obtain ⟨im, imo, iu⟩ := ih (send env s turn)
      (fun t ht => htext t (List.mem_cons_of_mem _ ht))
      (fun t ht => hout t (List.mem_cons_of_mem _ ht)) hrt
    obtain ⟨hmo, hun⟩ := sendMsgResume_mounted turn.2
      { s with messages := s.messages ++ [⟨.user, .str turn.1⟩], chatInput := "" } ho
    rw [List.foldl_cons, im, imo, iu, heq, sendMsgResume_messages _ _ ho, hmo, hun]
    refine ⟨?_, rfl, rfl⟩
    simp [List.flatMap_cons]

/-- C4 amended, on three sends: a reply, a failed fetch, and an error body. -/
theorem sends_transcript_witness :
    ([("hi", ChatOutcome.body true (.str "Hello.") .undefined),
      ("still there?", ChatOutcome.fetchRejected),
      ("ok", ChatOutcome.body false .undefined .undefined)].foldl
        (send (appEnv id)) (signedIn (chatState "Sad" [⟨.bot, .str "Welcome."⟩]))).messages
      = [⟨.bot, .str "Welcome."⟩,
         ⟨.user, .str "hi"⟩, ⟨.bot, .str "Hello."⟩,
         ⟨.user, .str "still there?"⟩, ⟨.bot, .str connectionError⟩,
         ⟨.user, .str "ok"⟩, ⟨.bot, .undefined⟩] ∧
    ([("hi", ChatOutcome.body true (.str "Hello.") .undefined),
      ("still there?", ChatOutcome.fetchRejected),
      ("ok", ChatOutcome.body false .undefined .undefined)].foldl
        (send (appEnv id)) (signedIn (chatState "Sad" [⟨.bot, .str "Welcome."⟩]))).mounted
      = true :=
  ⟨(sends_transcript (appEnv id) _ (signedIn (chatState "Sad" [⟨.bot, .str "Welcome."⟩]))
      (by decide) (by decide) (by decide)).1,
   (sends_transcript (appEnv id) _ (signedIn (chatState "Sad" [⟨.bot, .str "Welcome."⟩]))
      (by decide) (by decide) (by decide)).2.1⟩

/-- C5. For a transcript of length `n` and a non-blank chat text, `sendMsg`
issues a request whose `history` is the last `min 5 (n + 1)` entries of the
transcript with the new user message appended, in transcript order: its last
entry is that user message and it has at most 5 entries. -/
theorem sendMsg_request_history (s : State) (hin : blank s.chatInput = false) :
    ∃ req, (sendMsgStart s).2 = some req ∧
      (sendMsgStart s).1.messages = s.messages ++ [⟨.user, .str s.chatInput⟩] ∧
      req.history = (sendMsgStart s).1.messages.drop
        ((s.messages.length + 1) - min 5 (s.messages.length + 1)) ∧
      req.history <:+ (sendMsgStart s).1.messages ∧
      req.history.length = min 5 (s.messages.length + 1) ∧
      req.history.getLast? = some ⟨.user, .str s.chatInput⟩ ∧
      req.history.length ≤ 5 := by
  have hlen : (s.messages ++ [(⟨.user, .str s.chatInput⟩ : Msg)]).length - 5
      = (s.messages.length + 1) - min 5 (s.messages.length + 1) := by
    simp only [List.length_append, List.length_singleton]; omega
  have hhist : (s.messages ++ [(⟨.user, .str s.chatInput⟩ : Msg)]).drop
        ((s.messages ++ [(⟨.user, .str s.chatInput⟩ : Msg)]).length - 5)
      = (s.messages.drop (s.messages.length + 1 - 5)) ++ [⟨.user, .str s.chatInput⟩] := by
    have hle : (s.messages ++ [(⟨.user, .str s.chatInput⟩ : Msg)]).length - 5
        ≤ s.messages.length := by
      simp only [List.length_append, List.length_singleton]; omega
    rw [List.drop_append_of_le_length hle]
    simp
  refine ⟨_, by simp only [sendMsgStart, hin]; rfl, by simp [sendMsgStart, hin],
    ?_, ?_, ?_, ?_, ?_⟩
  · simp only [sendMsgStart, hin, Bool.false_eq_true, if_false]
    rw [hlen]
  · simp only [sendMsgStart, hin, Bool.false_eq_true, if_false]
    exact List.drop_suffix _ _
  · simp only [sendMsgStart, hin, Bool.false_eq_true, if_false, List.length_drop,
      List.length_append, List.length_singleton]
    omega
  · simp only [sendMsgStart, hin, Bool.false_eq_true, if_false]
    rw [hhist]
    simp
  · simp only [sendMsgStart, hin, Bool.false_eq_true, if_false, List.length_drop,
      List.length_append, List.length_singleton]
    omega

/-- C5 on a transcript of six messages: the request carries the last four of
them and the new user message. -/
theorem sendMsg_request_history_witness :
    ∃ req, (sendMsgStart { chatState "Low" [⟨.bot, .str "a"⟩, ⟨.user, .str "b"⟩,
        ⟨.bot, .str "c"⟩, ⟨.user, .str "d"⟩, ⟨.bot, .str "e"⟩, ⟨.user, .str "f"⟩]
        with chatInput := "g" }).2 = some req ∧
      req.history = [⟨.bot, .str "c"⟩, ⟨.user, .str "d"⟩, ⟨.bot, .str "e"⟩,
        ⟨.user, .str "f"⟩, ⟨.user, .str "g"⟩] := by
  obtain ⟨req, h1, _, h3, _⟩ := sendMsg_request_history
    { chatState "Low" [⟨.bot, .str "a"⟩, ⟨.user, .str "b"⟩,
        ⟨.bot, .str "c"⟩, ⟨.user, .str "d"⟩, ⟨.bot, .str "e"⟩, ⟨.user, .str "f"⟩]
        with chatInput := "g" } (by decide)
  exact ⟨req, h1, h3⟩

/-- C6. For every completed exchange of a non-blank text: when the parsed body
has `action` equal to the string `email_sent`, the send raises exactly one
alert (the emergency notice) and the transcript gains the user message and the
assistant message with the reply; for every other outcome the send raises no
alert. In all cases the earlier transcript is kept as a prefix, and exactly two
messages are added unless the body parses to `null`. -/
theorem send_alerts (env : Env) (s : State) (text : String) (o : ChatOutcome)
    (hin : blank text = false) :
    (∀ ok reply, o = .body ok reply (.str "email_sent") →
      (send env s (text, o)).alerts = s.alerts ++ [emergencyNotice] ∧
      (send env s (text, o)).messages = s.messages ++ [⟨.user, .str text⟩, ⟨.bot, reply⟩]) ∧
    ((∀ ok reply, o ≠ .body ok reply (.str "email_sent")) →
      (send env s (text, o)).alerts = s.alerts) ∧
    s.messages <+: (send env s (text, o)).messages ∧
    (o ≠ .nullBody → (send env s (text, o)).messages.length = s.messages.length + 2) := by
  obtain ⟨hm, ha⟩ := send_messages env s (text, o) hin
  rw [hm, ha]
  refine ⟨?_, ?_, ?_, ?_⟩
  · rintro ok reply rfl
    simp [sendMsgResume, raiseAlert]
  · intro hne
    cases o with
    | body ok reply action =>
      have : action ≠ .str "email_sent" := fun h => hne ok reply (by rw [h])
      simp [sendMsgResume, this]
    | nullBody => rfl
    | fetchRejected => rfl
    | jsonRejected => rfl
  · by_cases ho : o = .nullBody
    · rw [ho]
      exact List.prefix_append _ _
    · rw [sendMsgResume_messages _ _ ho]
      simp only [List.append_assoc]
      exact List.prefix_append _ _
  · intro ho
    rw [sendMsgResume_messages _ _ ho]
    simp

/-- C6 on a flagged response: one alert, and the reply is in the transcript. -/
theorem send_alerts_witness :
    (send (appEnv id) (chatState "Sad" []) ("help", .body true (.str "I am here.")
        (.str "email_sent"))).alerts = [emergencyNotice] ∧
    (send (appEnv id) (chatState "Sad" []) ("help", .body true (.str "I am here.")
        (.str "email_sent"))).messages
      = [⟨.user, .str "help"⟩, ⟨.bot, .str "I am here."⟩] :=
  (send_alerts (appEnv id) (chatState "Sad" []) "help"
    (.body true (.str "I am here.") (.str "email_sent")) (by decide)).1 true _ rfl

/-! ## Recent-activity log -/

/-- An event whose handler leaves autoplay off and no timer pending ends with
autoplay off and no timer pending. -/
theorem event_off (env : Env) (h : State → State) (s : State)
    (hoff : (h s).isAutoPlaying = false) (htm : (h s).timer = none) :
    (event env h s).isAutoPlaying = false ∧ (event env h s).timer = none := by
  unfold event
  split_ifs
  · exact ⟨hoff, rfl⟩
  · rw [dispatch, commit_off env _ _ hoff]
    split_ifs
    · exact ⟨hoff, htm⟩
    · exact ⟨hoff, rfl⟩

/-- The state after a successful check-in, field by field (`mounted` and
`uncaught` apart, which depend on the render). -/
theorem checkIn_fields (env : Env) (s : State) (c : CheckIn) (hin : blank c.text = false) :
    (checkIn env s c).user = s.user ∧ (checkIn env s c).view = .ritual ∧
    (checkIn env s c).mood = .str c.emotion ∧ (checkIn env s c).currentStep = 0 ∧
    (checkIn env s c).completedSteps = [] ∧
    (checkIn env s c).messages = [greeting env c.emotion] ∧
    (checkIn env s c).history = c.entry :: s.history.take 4 ∧
    (checkIn env s c).isAutoPlaying = false ∧ (checkIn env s c).timer = none := by
  have hX := analyze_success env c.now c.date c.emotion
    { event env reset s with input := c.text } hin
  have ha := event_frame env reset s
  have hoff := event_off env reset s rfl rfl
  have hb := event_frame env (analyze env c.now c.date (.body (.str c.emotion)))
    { event env reset s with input := c.text }
  have hboff := event_off env (analyze env c.now c.date (.body (.str c.emotion)))
    { event env reset s with input := c.text } (by rw [hX]) (by rw [hX]; exact hoff.2)
  have hu : (event env reset s).user = s.user := by rw [ha]; rfl
  have hh : (event env reset s).history = s.history := by rw [ha]; rfl
  rw [hX] at hb
  unfold checkIn
  refine ⟨?_, ?_, ?_, ?_, ?_, ?_, ?_, hboff.1, hboff.2⟩
  · rw [hb]; exact hu
  · rw [hb]
  · rw [hb]
  · rw [hb]
  · rw [hb]
  · rw [hb]
  · rw [hb]
    show _ :: List.take 4 (event env reset s).history = _
    rw [hh]
    rfl

/-- The log after the check-in event, for a service answer `e`. -/
theorem analyze_history (env : Env) (now : Nat) (date : String) (e : String) (s : State)
    (hin : blank s.input = false) :
    (dispatch env (analyze env now date (.body (.str e))) s).history
      = ⟨now, date, .str e, excerpt s.input⟩ :: s.history.take 4 := by
  rw [dispatch_frame, analyze_success env now date e s hin]

theorem checkIn_history (env : Env) (s : State) (c : CheckIn) (hin : blank c.text = false) :
    (checkIn env s c).history = c.entry :: s.history.take 4 := by
  exact (checkIn_fields env s c hin).2.2.2.2.2.2.1

theorem take_cons_take {α : Type} (x : α) (l : List α) (n m : Nat) (h : m ≤ n + 1) :
    (x :: l.take n).take m = (x :: l).take m := by
  cases m with
  | zero => rfl
  | succ k =>
    rw [List.take_succ_cons, List.take_succ_cons, List.take_take, Nat.min_eq_left (by omega)]

/-- The log after a run of check-ins: the new entries, newest first, then the
old log, cut to five. -/
theorem checkIns_history (env : Env) (cs : List CheckIn) :
    ∀ s : State, (∀ c ∈ cs, blank c.text = false) →
      (cs.foldl (checkIn env) s).history
        = (cs.reverse.map CheckIn.entry ++ s.history).take 5 ∨
      (cs = [] ∧ (cs.foldl (checkIn env) s).history = s.history) := by
  induction cs with
  | nil => intro s _; exact Or.inr ⟨rfl, rfl⟩
  | cons c rest ih =>
    intro s htext
    left
    have hc : blank c.text = false := htext c (List.mem_cons_self _ _)
    have hrest : ∀ d ∈ rest, blank d.text = false :=
      fun d hd => htext d (List.mem_cons_of_mem _ hd)
    rw [List.foldl_cons]
    rcases ih (checkIn env s c) hrest with h | ⟨rfl, h⟩
    · rw [h, checkIn_history env s c hc, List.reverse_cons, List.map_append,
        List.append_assoc, List.take_append_eq_append_take,
        List.take_append_eq_append_take]
      congr 1
      exact take_cons_take _ _ 4 _ (by omega)
    · rw [h, checkIn_history env s c hc]
      simp [List.take_take]

/-- C7. A successful check-in turns the log `L` into the new entry followed by
the first 4 entries of `L`, so the log then has at most 5 entries whatever the
length of `L`; and after more than 5 successive successful check-ins from any
log, the log is the entries of the 5 most recent check-ins, newest first. -/
theorem checkin_log (env : Env) (now : Nat) (date : String) (e : String) (s : State)
    (cs : List CheckIn) (hin : blank s.input = false)
    (htext : ∀ c ∈ cs, blank c.text = false) :
    ((dispatch env (analyze env now date (.body (.str e))) s).history
        = ⟨now, date, .str e, excerpt s.input⟩ :: s.history.take 4 ∧
     (dispatch env (analyze env now date (.body (.str e))) s).history.length ≤ 5) ∧
    (5 < cs.length →
      (cs.foldl (checkIn env) s).history = (cs.reverse.take 5).map CheckIn.entry) := by
  refine ⟨⟨analyze_history env now date e s hin, ?_⟩, ?_⟩
  · rw [analyze_history env now date e s hin, List.length_cons, List.length_take]
    omega
  · intro hlen
    rcases checkIns_history env cs s htext with h | ⟨rfl, _⟩
    · rw [h, List.take_append_eq_append_take, List.length_map, List.length_reverse,
        Nat.sub_eq_zero_of_le (by omega), List.take_zero, List.append_nil, List.map_take]
    · simp at hlen

/-- C7 on a stored log of two entries: one check-in puts its entry in front, and
six check-ins leave the entries of the last five, newest first. -/
theorem checkin_log_witness :
    (dispatch (appEnv id) (analyze (appEnv id) 9 "Nov 4" (.body (.str "Sad")))
        { initialState [(sampleCheckIn 1).entry, (sampleCheckIn 0).entry]
          with input := "hm" }).history
      = [⟨9, "Nov 4", .str "Sad", [104, 109]⟩, (sampleCheckIn 1).entry,
         (sampleCheckIn 0).entry] ∧
    (((List.range 6).map sampleCheckIn).foldl (checkIn (appEnv id))
        { initialState [(sampleCheckIn 1).entry, (sampleCheckIn 0).entry]
          with input := "hm" }).history
      = [(sampleCheckIn 5).entry, (sampleCheckIn 4).entry, (sampleCheckIn 3).entry,
         (sampleCheckIn 2).entry, (sampleCheckIn 1).entry] :=
  ⟨(checkin_log (appEnv id) 9 "Nov 4" "Sad"
      { initialState [(sampleCheckIn 1).entry, (sampleCheckIn 0).entry] with input := "hm" }
      ((List.range 6).map sampleCheckIn) (by decide) (by decide)).1.1,
   (checkin_log (appEnv id) 9 "Nov 4" "Sad"
      { initialState [(sampleCheckIn 1).entry, (sampleCheckIn 0).entry] with input := "hm" }
      ((List.range 6).map sampleCheckIn) (by decide) (by decide)).2 (by decide)⟩

/-! ## Manual navigation -/

/-- The state after the event of `goToStep(index)`. -/
theorem dispatch_goToStep (env : Env) (index : Nat) (s : State) :
    dispatch env (goToStep index) s
      = { s with currentStep := index, isAutoPlaying := false, timer := none } := by
  rw [dispatch, commit_off env _ _ (by rfl)]
  split_ifs <;> rfl

/-- C8. For every state and every index, the `goToStep(index)` event sets
`currentStep` to the index, turns autoplay off and leaves no timer pending;
every other part of the state (completed steps, mood, view, transcript, log)
is as it was. -/
theorem goToStep_event (env : Env) (index : Nat) (s : State) :
    dispatch env (goToStep index) s
      = { s with currentStep := index, isAutoPlaying := false, timer := none } :=
  dispatch_goToStep env index s

/-! ## Manual completion -/

/-- The handler `completeCurrentStep` by cases: the completed steps it sets do
not depend on the mood; the step advances when a ritual is found and the step
is before its last. -/
theorem completeCurrentStep_eq (env : Env) (s : State) :
    completeCurrentStep env s =
      match env.ritualOf s.mood with
      | none =>
        { s with completedSteps :=
                   if s.currentStep ∈ s.completedSteps then s.completedSteps
                   else s.completedSteps ++ [s.currentStep],
                 uncaught := s.uncaught + 1 }
      | some r =>
        { s with completedSteps :=
                   if s.currentStep ∈ s.completedSteps then s.completedSteps
                   else s.completedSteps ++ [s.currentStep],
                 currentStep :=
                   if s.currentStep + 1 < r.steps.length then s.currentStep + 1
                   else s.currentStep } := by
  cases hr : env.ritualOf s.mood with
  | none =>
    by_cases hmem : s.currentStep ∈ s.completedSteps <;>
      simp [completeCurrentStep, hr, hmem]
  | some r =>
    by_cases hlt : s.currentStep + 1 < r.steps.length
    · have hc : (s.currentStep : Int) < (r.steps.length : Int) - 1 := by omega
      by_cases hmem : s.currentStep ∈ s.completedSteps <;>
        simp [completeCurrentStep, hr, hmem, hc, hlt]
    · have hc : ¬ ((s.currentStep : Int) < (r.steps.length : Int) - 1) := by omega
      by_cases hmem : s.currentStep ∈ s.completedSteps <;>
        simp [completeCurrentStep, hr, hmem, hc, hlt]

/-- The completed steps after the event of `completeCurrentStep`. -/
theorem completeCurrentStep_event_completed (env : Env) (s : State) :
    (dispatch env (completeCurrentStep env) s).completedSteps
      = if s.currentStep ∈ s.completedSteps then s.completedSteps
        else s.completedSteps ++ [s.currentStep] := by
  rw [dispatch_frame, completeCurrentStep_eq]
  cases env.ritualOf s.mood <;> rfl

/-- The step after the event of `completeCurrentStep`, for a mood with a ritual. -/
theorem completeCurrentStep_event_step (env : Env) (r : Ritual) (s : State)
    (hr : env.ritualOf s.mood = some r) :
    (dispatch env (completeCurrentStep env) s).currentStep
      = if s.currentStep + 1 < r.steps.length then s.currentStep + 1 else s.currentStep := by
  rw [dispatch_frame, completeCurrentStep_eq, hr]

/-- C9, as stated, fails: on the last step of the `Anxious` ritual of `App.jsx`
(step 4 of 5) with steps 0 to 3 completed, `completeCurrentStep` appends 4 to
the completed steps, so the state after differs from the state before. -/
theorem completeCurrentStep_last_not_noop :
    (dispatch (appEnv id) (completeCurrentStep (appEnv id))
        (ritualState "Anxious" 4 [0, 1, 2, 3] false)).completedSteps = [0, 1, 2, 3, 4] ∧
    dispatch (appEnv id) (completeCurrentStep (appEnv id))
        (ritualState "Anxious" 4 [0, 1, 2, 3] false)
      ≠ ritualState "Anxious" 4 [0, 1, 2, 3] false := by
  decide

/-- C9, amended. On the last step of a registered mood (`currentStep = N - 1`),
`completeCurrentStep` leaves `currentStep`, `autoplayActive`, the pending timer
and everything else as they were, except that the index `N - 1` is appended to
`completedSteps` when it is not yet in it. -/
theorem completeCurrentStep_last (env : Env) (M : String) (r : Ritual) (s : State)
    (hr : env.ritualOf (.str M) = some r) (hmood : s.mood = .str M)
    (hlast : s.currentStep + 1 = r.steps.length) :
    dispatch env (completeCurrentStep env) s
      = { s with completedSteps :=
            if s.currentStep ∈ s.completedSteps then s.completedSteps
            else s.completedSteps ++ [s.currentStep] } := by
  have hn : ¬ (s.currentStep + 1 < r.steps.length) := by omega
  have h : completeCurrentStep env s
      = { s with completedSteps :=
            if s.currentStep ∈ s.completedSteps then s.completedSteps
            else s.completedSteps ++ [s.currentStep] } := by
    rw [completeCurrentStep_eq, hmood, hr]
    simp only [hn, if_false]
  rw [dispatch, h]
  exact commit_same env _ _ rfl

/-- C9 amended, on the last step of `Anxious`: with step 4 already completed the
state is unchanged, and otherwise 4 is appended. -/
theorem completeCurrentStep_last_witness :
    dispatch (appEnv id) (completeCurrentStep (appEnv id))
        (ritualState "Anxious" 4 [0, 4] true)
      = ritualState "Anxious" 4 [0, 4] true ∧
    dispatch (appEnv id) (completeCurrentStep (appEnv id))
        (ritualState "Anxious" 4 [0] false)
      = ritualState "Anxious" 4 [0, 4] false :=
  ⟨completeCurrentStep_last (appEnv id) "Anxious" _ (ritualState "Anxious" 4 [0, 4] true)
      rfl rfl (by decide),
   completeCurrentStep_last (appEnv id) "Anxious" _ (ritualState "Anxious" 4 [0] false)
      rfl rfl (by decide)⟩

/-- C10. For every state, with `i = currentStep`: after `completeCurrentStep`
the index `i` is in `completedSteps`, the earlier entries are kept in place,
every other index occurs as often as before, and `i` occurs `max 1 c` times
where `c` is its number of occurrences before. Hence completing step `i`,
returning with `goToStep(i)` and completing again leaves one occurrence of `i`
when there was at most one. When the mood has a ritual and `i` is before its
last step, `currentStep` becomes `i + 1`. -/
theorem completeCurrentStep_adds_once (env : Env) (s : State) :
    s.currentStep ∈ (dispatch env (completeCurrentStep env) s).completedSteps ∧
    s.completedSteps <+: (dispatch env (completeCurrentStep env) s).completedSteps ∧
    (∀ j, j ≠ s.currentStep →
      (dispatch env (completeCurrentStep env) s).completedSteps.count j
        = s.completedSteps.count j) ∧
    (dispatch env (completeCurrentStep env) s).completedSteps.count s.currentStep
      = max 1 (s.completedSteps.count s.currentStep) ∧
    (s.completedSteps.count s.currentStep ≤ 1 →
      (dispatch env (completeCurrentStep env)
        (dispatch env (goToStep s.currentStep)
          (dispatch env (completeCurrentStep env) s))).completedSteps.count s.currentStep
        = 1) ∧
    (∀ r, env.ritualOf s.mood = some r → s.currentStep + 1 < r.steps.length →
      (dispatch env (completeCurrentStep env) s).currentStep = s.currentStep + 1) := by
  have hdone := completeCurrentStep_event_completed env s
  have hmem : s.currentStep ∈ (dispatch env (completeCurrentStep env) s).completedSteps := by
    rw [hdone]; split_ifs with h
    · exact h
    · simp
  have hcount : (dispatch env (completeCurrentStep env) s).completedSteps.count s.currentStep
      = max 1 (s.completedSteps.count s.currentStep) := by
    rw [hdone]; split_ifs with h
    · have : 0 < s.completedSteps.count s.currentStep := List.count_pos_iff.mpr h
      omega
    · rw [List.count_append, List.count_eq_zero_of_not_mem h]
      simp
  refine ⟨hmem, ?_, ?_, hcount, ?_, ?_⟩
  · rw [hdone]; split_ifs
    · exact List.prefix_refl _
    · exact List.prefix_append _ _
  · intro j hj
    rw [hdone]; split_ifs
    · rfl
    · rw [List.count_append]
      simp [List.count_singleton, hj]
  · intro hle
    have hgo := dispatch_goToStep env s.currentStep (dispatch env (completeCurrentStep env) s)
    have h3 := completeCurrentStep_event_completed env
      (dispatch env (goToStep s.currentStep) (dispatch env (completeCurrentStep env) s))
    rw [hgo] at h3 ⊢
    rw [h3, if_pos hmem]
    show (dispatch env (completeCurrentStep env) s).completedSteps.count s.currentStep = 1
    rw [hcount]
    omega
  · intro r hr hlt
    rw [completeCurrentStep_event_step env r s hr, if_pos hlt]

/-- C10 at step 1 of `Anxious`: completing, returning with `goToStep(1)` and
completing again leaves one occurrence of 1; and the first completion moves to
step 2. -/
theorem completeCurrentStep_adds_once_witness :
    (dispatch (appEnv id) (completeCurrentStep (appEnv id))
      (dispatch (appEnv id) (goToStep 1)
        (dispatch (appEnv id) (completeCurrentStep (appEnv id))
          (ritualState "Anxious" 1 [0] false)))).completedSteps.count 1 = 1 ∧
    (dispatch (appEnv id) (completeCurrentStep (appEnv id))
      (ritualState "Anxious" 1 [0] false)).currentStep = 2 :=
  ⟨(completeCurrentStep_adds_once (appEnv id) (ritualState "Anxious" 1 [0] false)).2.2.2.2.1
      (by decide),
   (completeCurrentStep_adds_once (appEnv id) (ritualState "Anxious" 1 [0] false)).2.2.2.2.2
      _ rfl (by decide)⟩

/-! ## Reset -/

/-- The state after the event of `reset`. -/
theorem dispatch_reset (env : Env) (s : State) :
    dispatch env reset s
      = { s with timer := none, isAutoPlaying := false, view := .input, mood := .null,
                 input := "", currentStep := 0, completedSteps := [], messages := [] } := by
  rw [dispatch, commit_off env _ _ (by rfl)]
  split_ifs <;> rfl

/-- The state after `reset` and a successful check-in, when both renders
succeed. -/
theorem analyze_after_reset (env : Env) (s : State) (c : CheckIn)
    (hin : blank c.text = false) :
    dispatch env (analyze env c.now c.date (.body (.str c.emotion)))
        { dispatch env reset s with input := c.text }
      = { s with timer := none, isAutoPlaying := false, view := .ritual,
                 mood := .str c.emotion, input := c.text, loading := false,
                 currentStep := 0, completedSteps := [],
                 messages := [greeting env c.emotion],
                 history := c.entry :: s.history.take 4 } := by
  rw [dispatch_reset, dispatch, analyze_success env c.now c.date c.emotion _ hin,
    commit_off env _ _ (by rfl)]
  split_ifs <;> rfl

/-- C11. For every state, the `reset` event yields the intake view with the
mood `null`, the intake text and the transcript empty, step 0, no completed
step, autoplay off and no timer pending; the log and everything else are as
before. A successful check-in made next starts at step 0 with no completed
step and autoplay off. -/
theorem reset_event (env : Env) (s : State) (c : CheckIn) (hin : blank c.text = false) :
    dispatch env reset s
      = { s with view := .input, mood := .null, input := "", messages := [],
                 currentStep := 0, completedSteps := [], isAutoPlaying := false,
                 timer := none } ∧
    (dispatch env reset s).history = s.history ∧
    (dispatch env (analyze env c.now c.date (.body (.str c.emotion)))
        { dispatch env reset s with input := c.text }).completedSteps = [] ∧
    (dispatch env (analyze env c.now c.date (.body (.str c.emotion)))
        { dispatch env reset s with input := c.text }).currentStep = 0 ∧
    (dispatch env (analyze env c.now c.date (.body (.str c.emotion)))
        { dispatch env reset s with input := c.text }).isAutoPlaying = false := by
  rw [analyze_after_reset env s c hin, dispatch_reset]
  exact ⟨rfl, rfl, rfl, rfl, rfl⟩

/-- C11 in the middle of the `Anxious` ritual with autoplay on and the timer of
step 2 pending. -/
theorem reset_event_witness :
    dispatch (appEnv id) reset { ritualState "Anxious" 2 [0, 1] true with timer := some 2 }
      = initialState [] ∧
    (dispatch (appEnv id) (analyze (appEnv id) 5 "Nov 4" (.body (.str "Calm")))
        { dispatch (appEnv id) reset
            { ritualState "Anxious" 2 [0, 1] true with timer := some 2 }
          with input := "long day" }).completedSteps = [] :=
  ⟨(reset_event (appEnv id) { ritualState "Anxious" 2 [0, 1] true with timer := some 2 }
      (sampleCheckIn 5) (by decide)).1,
   (reset_event (appEnv id) { ritualState "Anxious" 2 [0, 1] true with timer := some 2 }
      (sampleCheckIn 5) (by decide)).2.2.1⟩

/-! ## Reachable states -/

/-- Every ritual found in a table whose scripts are non-empty has a step. -/
theorem ritualOf_steps_pos (env : Env) (hsteps : ∀ p ∈ env.RITUALS, 1 ≤ p.2.steps.length)
    (m : JsVal) (r : Ritual) (hr : env.ritualOf m = some r) : 1 ≤ r.steps.length := by
  obtain ⟨l₁, l₂, hl, -⟩ := List.lookup_eq_some_iff.mp hr
  exact hsteps (m.key, r) (by rw [hl]; simp)

/-- The timer the effect leaves: the one it found, or one for the current step,
armed before the last step of the ritual of the mood. -/
theorem autoplayEffect_timer (env : Env) (s : State) :
    (autoplayEffect env s).timer = s.timer ∨ (autoplayEffect env s).timer = none ∨
    ((autoplayEffect env s).timer = some s.currentStep ∧
      ∃ r, env.ritualOf s.mood = some r ∧ s.currentStep + 1 < r.steps.length) := by
  rcases autoplayEffect_cases env s with h | h | h | ⟨h, hr⟩ <;> rw [h]
  · exact Or.inl rfl
  · exact Or.inr (Or.inl rfl)
  · exact Or.inl rfl
  · exact Or.inr (Or.inr ⟨rfl, hr⟩)

/-- The timer after the effect passes: none, the one of the state when its
dependencies are those of the previous render, or one for the current step,
armed before the last step. -/
theorem runEffects_timer (env : Env) (n : Nat) :
    ∀ (prev : Bool × Nat × JsVal) (s : State),
      (runEffects env n prev s).timer = none ∨
      (runEffects env n prev s).timer = s.timer ∧ (n = 0 ∨ deps s = prev) ∨
      ((runEffects env n prev s).timer = some s.currentStep ∧
        ∃ r, env.ritualOf s.mood = some r ∧ s.currentStep + 1 < r.steps.length) := by
  induction n with
  | zero => intro prev s; exact Or.inr (Or.inl ⟨rfl, Or.inl rfl⟩)
  | succ n ih =>
    intro prev s
    rw [runEffects_succ]
    split_ifs with hd
    · exact Or.inr (Or.inl ⟨rfl, Or.inr hd⟩)
    · have hf := autoplayEffect_frame env (clearAutoplayTimer s)
      have ht := autoplayEffect_timer env (clearAutoplayTimer s)
      have h1 := ih (deps s) (autoplayEffect env (clearAutoplayTimer s))
      generalize autoplayEffect env (clearAutoplayTimer s) = u at hf ht h1
      have hm : u.mood = s.mood := by rw [hf]; rfl
      have hc : u.currentStep = s.currentStep := by rw [hf]; rfl
      have hu : u.timer = none ∨ (u.timer = some s.currentStep ∧
          ∃ r, env.ritualOf s.mood = some r ∧ s.currentStep + 1 < r.steps.length) := by
        rcases ht with h | h | h
        · exact Or.inl h
        · exact Or.inl h
        · exact Or.inr h
      rcases h1 with h | ⟨h, -⟩ | h
      · exact Or.inl h
      · rcases hu with hu | hu
        · exact Or.inl (h.trans hu)
        · exact Or.inr (Or.inr ⟨h.trans hu.1, hu.2⟩)
      · rw [hm, hc] at h
        exact Or.inr (Or.inr h)

/-- An event keeps the two invariants when its handler leaves the step and the
completed steps in range and does not arm a timer itself. -/
theorem dispatch_inv (env : Env) (h : State → State) (s : State)
    (hA : StepsInRange env (h s)) (hB : TimerSound env s)
    (ht : (h s).timer = s.timer ∨ (h s).timer = none) :
    StepsInRange env (dispatch env h s) ∧ TimerSound env (dispatch env h s) := by
  have hf := dispatch_frame env h s
  have hm : (dispatch env h s).mood = (h s).mood := by rw [hf]
  have hc : (dispatch env h s).currentStep = (h s).currentStep := by rw [hf]
  have hd : (dispatch env h s).completedSteps = (h s).completedSteps := by rw [hf]
  have htm := runEffects_timer env 2 (deps s) (h s)
  constructor
  · intro r hr
    rw [hm] at hr
    rw [hc, hd]
    exact hA r hr
  · intro c hcap
    rw [hm, hc]
    have hcap2 : (runEffects env 2 (deps s) (h s)).timer = some c := hcap
    rcases htm with h0 | ⟨h1, h2⟩ | ⟨h1, h2⟩
    · rw [h0] at hcap2; cases hcap2
    · rcases h2 with h2 | h2
      · omega
      · rw [h1] at hcap2
        rcases ht with ht | ht
        · rw [ht] at hcap2
          obtain ⟨e1, r, hr, hlt⟩ := hB c hcap2
          have hcur : (h s).currentStep = s.currentStep := congrArg (fun d => d.2.1) h2
          have hmood : (h s).mood = s.mood := congrArg (fun d => d.2.2) h2
          rw [hcur, hmood]
          exact ⟨e1, r, hr, hlt⟩
        · rw [ht] at hcap2; cases hcap2
    · rw [h1] at hcap2
      cases hcap2
      exact ⟨rfl, h2⟩

/-- The same for the event with its render: when the render throws, the
component is unmounted with the values the handler set and no timer. -/
theorem event_inv (env : Env) (h : State → State) (s : State)
    (hA : StepsInRange env (h s)) (hB : TimerSound env s)
    (ht : (h s).timer = s.timer ∨ (h s).timer = none) :
    StepsInRange env (event env h s) ∧ TimerSound env (event env h s) := by
  unfold event
  split_ifs
  · exact ⟨hA, fun c hc => by cases hc⟩
  · exact dispatch_inv env h s hA hB ht

/-- Each event that can happen keeps the two invariants. -/
theorem step_inv (env : Env) (hsteps : ∀ p ∈ env.RITUALS, 1 ≤ p.2.steps.length)
    (s : State) (e : Event) (hA : StepsInRange env s) (hB : TimerSound env s)
    (hen : e.enabled env s = true) :
    StepsInRange env (step env s e) ∧ TimerSound env (step env s e) := by
  cases e with
  | checkIn c =>
    have hin : blank c.text = false := by
      simp only [Event.enabled, Bool.and_eq_true, Bool.not_eq_true'] at hen
      exact hen.1
    show StepsInRange env (checkIn env s c) ∧ TimerSound env (checkIn env s c)
    obtain ⟨-, -, -, hcur, hdone, -, -, -, htm⟩ := checkIn_fields env s c hin
    constructor
    · intro r hr
      rw [hcur, hdone]
      exact ⟨ritualOf_steps_pos env hsteps _ r hr, by intro j hj; cases hj⟩
    · intro d hd
      rw [htm] at hd
      cases hd
  | toggleAutoPlay =>
    exact event_inv env toggleAutoPlay s hA hB (Or.inl rfl)
  | timeout =>
    show StepsInRange env (match s.timer with
        | some captured => event env (onTimeout captured) s
        | none => s) ∧ TimerSound env (match s.timer with
        | some captured => event env (onTimeout captured) s
        | none => s)
    cases hcap : s.timer with
    | none => exact ⟨hA, hB⟩
    | some c =>
      obtain ⟨hc, r, hr, hlt⟩ := hB c hcap
      refine event_inv env (onTimeout c) s ?_ hB (Or.inr rfl)
      intro r2 hr2
      have hr3 : env.ritualOf s.mood = some r2 := hr2
      rw [hr] at hr3
      cases hr3
      refine ⟨by show s.currentStep + 1 < r.steps.length; omega, ?_⟩
      intro j hj
      have hj2 : j ∈ s.completedSteps ++ [c] := hj
      rcases List.mem_append.mp hj2 with h | h
      · exact (hA r hr).2 j h
      · rw [List.mem_singleton] at h; omega
  | goToStep index =>
    refine event_inv env (goToStep index) s ?_ hB (Or.inr rfl)
    intro r hr
    have hr2 : env.ritualOf s.mood = some r := hr
    simp only [Event.enabled, hr2, decide_eq_true_eq] at hen
    exact ⟨hen, (hA r hr2).2⟩
  | completeCurrentStep =>
    refine event_inv env (completeCurrentStep env) s ?_ hB ?_
    · rw [completeCurrentStep_eq]
      cases hr : env.ritualOf s.mood with
      | none =>
        intro r2 hr2
        have hr3 : env.ritualOf s.mood = some r2 := hr2
        rw [hr] at hr3
        cases hr3
      | some r =>
        intro r2 hr2
        have hr3 : env.ritualOf s.mood = some r2 := hr2
        rw [hr] at hr3
        cases hr3
        obtain ⟨h1, h2⟩ := hA r hr
        constructor
        · show (if s.currentStep + 1 < r.steps.length then s.currentStep + 1
              else s.currentStep) < r.steps.length
          split_ifs <;> omega
        · intro j hj
          have hj2 : j ∈ (if s.currentStep ∈ s.completedSteps then s.completedSteps
              else s.completedSteps ++ [s.currentStep]) := hj
          split_ifs at hj2
          · exact h2 j hj2
          · rcases List.mem_append.mp hj2 with h | h
            · exact h2 j h
            · rw [List.mem_singleton] at h; omega
    · rw [completeCurrentStep_eq]
      cases env.ritualOf s.mood <;> exact Or.inl rfl
  | restartRitual =>
    refine event_inv env restartRitual s ?_ hB (Or.inl rfl)
    intro r hr
    exact ⟨ritualOf_steps_pos env hsteps _ r hr, by intro j hj; cases hj⟩
  | reset =>
    refine event_inv env reset s ?_ hB (Or.inr rfl)
    intro r hr
    exact ⟨ritualOf_steps_pos env hsteps _ r hr, by intro j hj; cases hj⟩

/-- A run of events keeps the two invariants. -/
theorem run_inv (env : Env) (hsteps : ∀ p ∈ env.RITUALS, 1 ≤ p.2.steps.length)
    (events : List Event) :
    ∀ s t : State, StepsInRange env s → TimerSound env s → run env s events = some t →
      StepsInRange env t ∧ TimerSound env t := by
  induction events with
  | nil =>
    intro s t hA hB hrun
    cases hrun
    exact ⟨hA, hB⟩
  | cons e rest ih =>
    intro s t hA hB hrun
    rw [run] at hrun
    split_ifs at hrun with hen
    obtain ⟨hA2, hB2⟩ := step_inv env hsteps s e hA hB hen
    exact ih _ t hA2 hB2 hrun

/-- The state at mount satisfies the two invariants. -/
theorem initialState_inv (env : Env) (hsteps : ∀ p ∈ env.RITUALS, 1 ≤ p.2.steps.length)
    (stored : List Entry) :
    StepsInRange env (initialState stored) ∧ TimerSound env (initialState stored) := by
  constructor
  · intro r hr
    exact ⟨ritualOf_steps_pos env hsteps _ r hr, by intro j hj; cases hj⟩
  · intro c hc
    cases hc

/-- C12. Let every script of the table have at least one step. In every state
reached from the state at mount by a run of successful check-ins with a mood of
the table, `toggleAutoPlay`, timer firings, `goToStep` with an index of the
ritual, `completeCurrentStep`, `restartRitual` and `reset`: when the active
mood has a script of `N` steps, `currentStep ≤ N - 1` and every member of
`completedSteps` is at most `N - 1`. -/
theorem reachable_steps_in_range (env : Env)
    (hsteps : ∀ p ∈ env.RITUALS, 1 ≤ p.2.steps.length) (stored : List Entry)
    (events : List Event) (s : State) (hrun : run env (initialState stored) events = some s)
    (r : Ritual) (hr : env.ritualOf s.mood = some r) :
    s.currentStep ≤ r.steps.length - 1 ∧ ∀ j ∈ s.completedSteps, j ≤ r.steps.length - 1 := by
  obtain ⟨hA0, hB0⟩ := initialState_inv env hsteps stored
  obtain ⟨hA, -⟩ := run_inv env hsteps events _ s hA0 hB0 hrun
  obtain ⟨h1, h2⟩ := hA r hr
  exact ⟨by omega, fun j hj => by have := h2 j hj; omega⟩

/-- C12 on the sample run over the `Anxious` ritual of `App.jsx` (five steps). -/
theorem reachable_steps_in_range_witness :
    ∃ s, run (appEnv id) (initialState []) sampleRun = some s ∧
      s.currentStep ≤ 5 - 1 ∧ ∀ j ∈ s.completedSteps, j ≤ 5 - 1 := by
  refine ⟨_, rfl, ?_⟩
  exact reachable_steps_in_range (appEnv id) (by decide) [] sampleRun _ rfl _ rfl

/-! ## Moods without a script -/

/-- C13, evaluated on the code: a signed-in user checks in and the service
answers `Happy`, which is a key of neither `RITUALS` nor `MOODS`. The check-in
is not treated as a failure: `analyze` sets the mood `Happy` and the ritual
view, and the render that follows throws at `moodConfig.accentColor`, so that
the component is unmounted. -/
theorem checkIn_unregistered_unmounts :
    (appEnv String.toLower).ritualOf (.str "Happy") = none ∧
    (checkIn (appEnv String.toLower) (signedIn (initialState []))
        ⟨"so happy", 1, "Nov 4", "Happy"⟩).view = .ritual ∧
    (checkIn (appEnv String.toLower) (signedIn (initialState []))
        ⟨"so happy", 1, "Nov 4", "Happy"⟩).mood = .str "Happy" ∧
    (checkIn (appEnv String.toLower) (signedIn (initialState []))
        ⟨"so happy", 1, "Nov 4", "Happy"⟩).mounted = false ∧
    (checkIn (appEnv String.toLower) (signedIn (initialState []))
        ⟨"so happy", 1, "Nov 4", "Happy"⟩).uncaught = 1 := by
  decide

/-! ## Responses that arrive late -/

/-- The render after the effects throws when the render after the handler does. -/
theorem renderThrows_dispatch (env : Env) (h : State → State) (s : State) :
    renderThrows env (dispatch env h s) = renderThrows env (h s) := by
  have hf := dispatch_frame env h s
  exact renderThrows_congr env _ _ (by rw [hf]) (by rw [hf]) (by rw [hf]) (by rw [hf])
    (by rw [hf])

/-- An event that leaves the component mounted leaves a state that renders. -/
theorem event_mounted_renders (env : Env) (h : State → State) (s : State)
    (hm : (event env h s).mounted = true) : renderThrows env (event env h s) = false := by
  unfold event at hm ⊢
  by_cases hr : renderThrows env (h s) = true
  · rw [if_pos hr] at hm
    cases hm
  · rw [if_neg hr, renderThrows_dispatch]
    simpa using hr

/-- The delivery of a `/chat` response outside the chat view, to a state that
renders: the event is the resumption of `sendMsg` on that state. -/
theorem deliver_late (env : Env) (o : ChatOutcome) (t : State)
    (hv : t.view ≠ .chat) (hr : renderThrows env t = false) :
    event env (sendMsgResume o) t = sendMsgResume o t := by
  obtain ⟨fu, fm, fv, fh⟩ := sendMsgResume_frame o t
  have hrt : renderThrows env (sendMsgResume o t) = false := by
    rw [renderThrows_congr_not_chat env _ t fu fm fv fh hv]
    exact hr
  rw [event_eq_dispatch env _ _ hrt, dispatch]
  exact commit_same env _ _ (sendMsgResume_deps _ _)

/-- A response delivered after a `reset` that left the component mounted. -/
theorem deliver_after_reset (env : Env) (s : State) (o : ChatOutcome) :
    o ≠ .nullBody → (event env reset s).mounted = true →
    (event env (sendMsgResume o) (event env reset s)).messages =
      [⟨.bot, match o with
              | .body _ reply _ => reply
              | _ => .str connectionError⟩] ∧
    (event env (sendMsgResume o) (event env reset s)).mounted = true := by
  intro ho hm
  have hf := event_frame env reset s
  have hv : (event env reset s).view ≠ .chat := by
    rw [hf]; intro h; cases h
  have hmsg : (event env reset s).messages = [] := by rw [hf]; rfl
  rw [deliver_late env o _ hv (event_mounted_renders env reset s hm),
    sendMsgResume_messages o _ ho, (sendMsgResume_mounted o _ ho).1, hmsg]
  exact ⟨rfl, hm⟩

/-- A response delivered after a new check-in that left the component mounted. -/
theorem deliver_after_checkIn (env : Env) (s : State) (o : ChatOutcome) (c : CheckIn)
    (hin : blank c.text = false) :
    o ≠ .nullBody → (checkIn env s c).mounted = true →
    (event env (sendMsgResume o) (checkIn env s c)).messages =
      [greeting env c.emotion,
       ⟨.bot, match o with
              | .body _ reply _ => reply
              | _ => .str connectionError⟩] ∧
    (event env (sendMsgResume o) (checkIn env s c)).mounted = true := by
  intro ho hm
  obtain ⟨-, hview, -, -, -, hmsg, -, -, -⟩ := checkIn_fields env s c hin
  have hv : (checkIn env s c).view ≠ .chat := by
    rw [hview]; intro h; cases h
  have hr : renderThrows env (checkIn env s c) = false :=
    event_mounted_renders env _ _ hm
  rw [deliver_late env o _ hv hr, sendMsgResume_messages o _ ho,
    (sendMsgResume_mounted o _ ho).1, hmsg]
  exact ⟨rfl, hm⟩

/-- C14, as stated, fails: a signed-in user sends a message in a `Sad` session,
resets the session and checks in again (answer `Calm`), and only then the
response arrives. Its reply is appended to the transcript of the new session. -/
theorem late_reply_not_discarded :
    (event (appEnv String.toLower)
        (sendMsgResume (.body true (.str "That sounds hard.") .undefined))
        (checkIn (appEnv String.toLower)
          (sendMsgStart { signedIn (chatState "Sad" []) with chatInput := "hello" }).1
          ⟨"better now", 2, "Nov 4", "Calm"⟩)).messages
      = [greeting (appEnv String.toLower) "Calm", ⟨.bot, .str "That sounds hard."⟩] ∧
    (event (appEnv String.toLower)
        (sendMsgResume (.body true (.str "That sounds hard.") .undefined))
        (checkIn (appEnv String.toLower)
          (sendMsgStart { signedIn (chatState "Sad" []) with chatInput := "hello" }).1
          ⟨"better now", 2, "Nov 4", "Calm"⟩)).messages
      ≠ (checkIn (appEnv String.toLower)
          (sendMsgStart { signedIn (chatState "Sad" []) with chatInput := "hello" }).1
          ⟨"better now", 2, "Nov 4", "Calm"⟩).messages := by
  have h := (deliver_after_checkIn (appEnv String.toLower)
    (sendMsgStart { signedIn (chatState "Sad" []) with chatInput := "hello" }).1
    (.body true (.str "That sounds hard.") .undefined)
    ⟨"better now", 2, "Nov 4", "Calm"⟩ (by decide) (by decide) (by decide)).1
  refine ⟨h, ?_⟩
  rw [h, (checkIn_fields _ _ _ (by decide)).2.2.2.2.2.1]
  intro hne
  have hlen := congrArg List.length hne
  simp at hlen

/-- C14, amended. A response that arrives after the session it was sent from was
reset is not discarded. Unless its body parses to `null`, its delivery outside
the chat view, to a component that is displayed, appends exactly one assistant
message (the `reply` of the parsed body, or the connection-error text) at the
end of the transcript current at that time, whose entries stay in place. After
a `reset` alone the transcript is that one message; after a `reset` and a new
successful check-in it is the greeting of the new session followed by that
message; the component stays mounted. -/
theorem late_reply_appended (env : Env) (s : State) (o : ChatOutcome) (c : CheckIn)
    (hsend : blank s.chatInput = false) (hin : blank c.text = false) :
    o ≠ .nullBody →
    (sendMsgStart s).2 ≠ none ∧
    (∀ t : State, t.view ≠ .chat → renderThrows env t = false →
      (event env (sendMsgResume o) t).messages = t.messages ++
        [⟨.bot, match o with
                | .body _ reply _ => reply
                | _ => .str connectionError⟩]) ∧
    ((event env reset (sendMsgStart s).1).mounted = true →
      (event env (sendMsgResume o) (event env reset (sendMsgStart s).1)).messages =
        [⟨.bot, match o with
                | .body _ reply _ => reply
                | _ => .str connectionError⟩] ∧
      (event env (sendMsgResume o) (event env reset (sendMsgStart s).1)).mounted = true) ∧
    ((checkIn env (sendMsgStart s).1 c).mounted = true →
      (event env (sendMsgResume o) (checkIn env (sendMsgStart s).1 c)).messages =
        [greeting env c.emotion,
         ⟨.bot, match o with
                | .body _ reply _ => reply
                | _ => .str connectionError⟩] ∧
      (event env (sendMsgResume o) (checkIn env (sendMsgStart s).1 c)).mounted = true) := by
  intro ho
  refine ⟨by simp [sendMsgStart, hsend], ?_, deliver_after_reset env _ o ho,
    deliver_after_checkIn env _ o c hin ho⟩
  intro t hv hr
  rw [deliver_late env o t hv hr, sendMsgResume_messages o t ho]

/-- C14 amended, on a failed exchange delivered after a `reset`: the transcript
of the intake view holds the connection-error message. -/
theorem late_reply_appended_witness :
    (event (appEnv id) (sendMsgResume .fetchRejected)
        (event (appEnv id) reset
          (sendMsgStart { signedIn (chatState "Sad" []) with chatInput := "hello" }).1)).messages
      = [⟨.bot, .str connectionError⟩] ∧
    (event (appEnv id) (sendMsgResume .fetchRejected)
        (event (appEnv id) reset
          (sendMsgStart { signedIn (chatState "Sad" []) with chatInput := "hello" }).1)).mounted
      = true :=
  (late_reply_appended (appEnv id) { signedIn (chatState "Sad" []) with chatInput := "hello" }
    .fetchRejected (sampleCheckIn 0) (by decide) (by decide) (by decide)).2.2.1 (by decide)

/-! ## Completed steps as a set -/

/-- C15, evaluated on the code: after a check-in answering `Anxious`, the user
completes step 0, returns to it with `goToStep(0)` and starts autoplay; when
the timer fires, its callback appends the captured step without the membership
test of `completeCurrentStep`, and `completedSteps` is `[0, 0]`. -/
theorem autoplay_duplicates_completed_step :
    (run (appEnv String.toLower) (initialState [])
        [.checkIn ⟨"my heart is racing", 1, "Nov 4", "Anxious"⟩, .completeCurrentStep,
         .goToStep 0, .toggleAutoPlay, .timeout]).map (fun s => s.completedSteps)
      = some [0, 0] := by
  decide

end MoodScape

